import Mathlib

/-!
Verification of the alertmanager-bot core against its specification.

The development shallowly embeds the Go sources:
  * `pkg/vendor/matcher.go`   — matcher language engine (`ParseMatcher`,
    `ParseMatchers`, `NewMatcher`, `Matcher.Matches`, `Matchers.Matches`,
    `Matcher.String`, `openMetricsEscape`);
  * the vendored silence model — `CalcSilenceState`;
  * `pkg/alertmanager/alerts.go` — `Resolved`;
  * `pkg/telegram/bot.go`     — the bot's `silence` operation.

Go strings are UTF-8 encoded byte sequences, so strings are embedded as
`List Nat` of byte values.  UTF-8 validity (`unicode/utf8.ValidString`) and
rune-by-rune iteration (Go `for _, r := range s`, which yields U+FFFD and
advances one byte on invalid input) are modelled explicitly, byte-accurately.
Wall-clock instants (`time.Time`) are embedded as `Int`; `time.Now()` is
passed as an explicit `now` argument.  Go's `regexp` package is modelled by a
small deep-embedded engine covering the syntax fragment the program and its
spec exercise (literals, `.`, `^`, `$`, grouping, alternation, `*`/`+`/`?`
with optional non-greedy markers, and escaped punctuation); constructs
outside the fragment (character classes, counted repetition, non-ASCII
pattern bytes) are conservatively rejected by the model's compiler.
-/

/-! ### UTF-8 byte model (unicode/utf8) -/

/-- A UTF-8 continuation byte, `0x80..0xBF`. -/
def contB (b : Nat) : Bool := 128 ≤ b && b ≤ 191

/-- A valid 2-byte UTF-8 sequence head: `0xC2..0xDF` + continuation. -/
def valid2 (b1 b2 : Nat) : Bool := 194 ≤ b1 && b1 ≤ 223 && contB b2

/-- A valid 3-byte UTF-8 sequence (excludes overlongs and surrogates,
as Go's `unicode/utf8` does). -/
def valid3 (b1 b2 b3 : Nat) : Bool :=
  ((b1 = 224 && 160 ≤ b2 && b2 ≤ 191) ||
   (225 ≤ b1 && b1 ≤ 236 && contB b2) ||
   (b1 = 237 && 128 ≤ b2 && b2 ≤ 159) ||
   (238 ≤ b1 && b1 ≤ 239 && contB b2)) && contB b3

/-- A valid 4-byte UTF-8 sequence (excludes overlongs and > U+10FFFF). -/
def valid4 (b1 b2 b3 b4 : Nat) : Bool :=
  ((b1 = 240 && 144 ≤ b2 && b2 ≤ 191) ||
   (241 ≤ b1 && b1 ≤ 243 && contB b2) ||
   (b1 = 244 && 128 ≤ b2 && b2 ≤ 143)) && contB b3 && contB b4

/-- Number of bytes consumed when decoding one rune at the front of the
string: the length of the valid UTF-8 sequence at the front, or 1 when the
front byte is ASCII or the sequence is invalid (Go's `DecodeRuneInString`
also reports size 1 on encoding errors). -/
def utf8Len : List Nat → Nat
  | b1 :: b2 :: b3 :: b4 :: _ =>
      if valid4 b1 b2 b3 b4 then 4
      else if valid3 b1 b2 b3 then 3
      else if valid2 b1 b2 then 2 else 1
  | [b1, b2, b3] => if valid3 b1 b2 b3 then 3 else if valid2 b1 b2 then 2 else 1
  | [b1, b2] => if valid2 b1 b2 then 2 else 1
  | _ => 1

/-- The front of the string decodes as a valid rune (ASCII byte or a valid
multi-byte sequence). -/
def runeValidFront : List Nat → Bool
  | [] => false
  | b1 :: rest => b1 ≤ 127 ||
      (match rest with
       | b2 :: b3 :: b4 :: _ => valid2 b1 b2 || valid3 b1 b2 b3 || valid4 b1 b2 b3 b4
       | [b2, b3] => valid2 b1 b2 || valid3 b1 b2 b3
       | [b2] => valid2 b1 b2
       | [] => false)

theorem utf8Len_pos (l : List Nat) : 1 ≤ utf8Len l := by
  unfold utf8Len
  split <;> (try split) <;> (try split) <;> (try split) <;> omega

theorem utf8Len_le_length (l : List Nat) (h : l ≠ []) : utf8Len l ≤ l.length := by
  rcases l with _ | ⟨b1, _ | ⟨b2, _ | ⟨b3, _ | ⟨b4, t⟩⟩⟩⟩
  · exact absurd rfl h
  all_goals simp only [utf8Len, List.length]
  · omega
  · split <;> omega
  · split <;> (try split) <;> omega
  · split <;> (try split) <;> (try split) <;> simp <;> omega

/-- Advance past one rune (Go `range` advance: the rune's size, or one byte
on an encoding error — `utf8Len` already returns 1 in that case). -/
def advanceRune (l : List Nat) : List Nat := l.drop (utf8Len l)

theorem advanceRune_length_lt (l : List Nat) (h : l ≠ []) :
    (advanceRune l).length < l.length := by
  have h1 := utf8Len_pos l
  have h2 : 1 ≤ l.length := by
    cases l with
    | nil => exact absurd rfl h
    | cons a t => simp
  simp only [advanceRune, List.length_drop]
  omega

/-- `unicode/utf8.ValidString`: every rune in the string decodes validly.
The recursion consumes one rune per step; the 1/2/3/4-byte cases are spelt
out (`valid2`/`valid3`/`valid4` have mutually exclusive lead-byte ranges,
so this is the same classification `utf8Len` performs). -/
def utf8Valid : List Nat → Bool
  | [] => true
  | b1 :: t1 =>
    if b1 ≤ 127 then utf8Valid t1
    else
      match t1 with
      | [] => false
      | b2 :: t2 =>
        if valid2 b1 b2 then utf8Valid t2
        else
          match t2 with
          | [] => false
          | b3 :: t3 =>
            if valid3 b1 b2 b3 then utf8Valid t3
            else
              match t3 with
              | [] => false
              | b4 :: t4 => if valid4 b1 b2 b3 b4 then utf8Valid t4 else false

/-- The bytes Go's `WriteRune` emits for the rune decoded at the front: the
rune's own bytes when the front decodes validly, the U+FFFD replacement
character's bytes (`EF BF BD`) otherwise, exactly as Go's `range` over a
string yields `utf8.RuneError` on invalid input. -/
def emitRune (l : List Nat) : List Nat :=
  if runeValidFront l then l.take (utf8Len l) else [239, 191, 189]

/-- Code point of the rune at the front of the string (U+FFFD on invalid
input).  Only used for Go's `unicode.IsSpace` classification. -/
def cpFront : List Nat → Nat
  | [] => 65533
  | b1 :: b2 :: b3 :: b4 :: _ =>
      if valid4 b1 b2 b3 b4 then
        (b1 - 240) * 262144 + (b2 - 128) * 4096 + (b3 - 128) * 64 + (b4 - 128)
      else if valid3 b1 b2 b3 then (b1 - 224) * 4096 + (b2 - 128) * 64 + (b3 - 128)
      else if valid2 b1 b2 then (b1 - 192) * 64 + (b2 - 128)
      else if b1 ≤ 127 then b1 else 65533
  | [b1, b2, b3] =>
      if valid3 b1 b2 b3 then (b1 - 224) * 4096 + (b2 - 128) * 64 + (b3 - 128)
      else if valid2 b1 b2 then (b1 - 192) * 64 + (b2 - 128)
      else if b1 ≤ 127 then b1 else 65533
  | [b1, b2] =>
      if valid2 b1 b2 then (b1 - 192) * 64 + (b2 - 128)
      else if b1 ≤ 127 then b1 else 65533
  | [b1] => if b1 ≤ 127 then b1 else 65533

/-! ### Go string helpers (strings.TrimPrefix / TrimSuffix / TrimSpace) -/

/-- `strings.TrimPrefix(s, prefix)` specialised to a single-byte prefix. -/
def trimPrefixB (p : Nat) : List Nat → List Nat
  | [] => []
  | b :: rest => if b = p then rest else b :: rest

/-- `strings.TrimSuffix(s, suffix)` specialised to a single-byte suffix. -/
def trimSuffixB (p : Nat) (l : List Nat) : List Nat :=
  match l.reverse with
  | [] => []
  | b :: rest => if b = p then rest.reverse else l

/-- Go `unicode.IsSpace` on a code point. -/
def isSpaceRune (r : Nat) : Bool :=
  r = 9 || r = 10 || r = 11 || r = 12 || r = 13 || r = 32 ||
  r = 133 || r = 160 || r = 5760 || (8192 ≤ r && r ≤ 8202) ||
  r = 8232 || r = 8233 || r = 8239 || r = 8287 || r = 12288

/-- Split a byte string into its runes, as Go's `for _, r := range s`
iterates them: each chunk is the byte group of one decoded rune — a valid
1/2/3/4-byte sequence, or a single byte on an encoding error (decoded as
U+FFFD).  The 1/2/3/4-byte cases are spelt out as in `utf8Valid`. -/
def runeSlices : List Nat → List (List Nat)
  | [] => []
  | b :: rest =>
    if b ≤ 127 then [b] :: runeSlices rest
    else
      match rest with
      | [] => [b] :: runeSlices []
      | c2 :: r2 =>
        if valid2 b c2 then [b, c2] :: runeSlices r2
        else
          match r2 with
          | [] => [b] :: runeSlices [c2]
          | c3 :: r3 =>
            if valid3 b c2 c3 then [b, c2, c3] :: runeSlices r3
            else
              match r3 with
              | [] => [b] :: runeSlices [c2, c3]
              | c4 :: r4 =>
                if valid4 b c2 c3 c4 then [b, c2, c3, c4] :: runeSlices r4
                else [b] :: runeSlices (c2 :: c3 :: c4 :: r4)

/-- The bytes `WriteRune` emits for one rune chunk: the chunk itself when it
decodes validly, the U+FFFD replacement bytes for an invalid single byte
(multi-byte chunks are valid by construction of `runeSlices`). -/
def emitChunk (c : List Nat) : List Nat :=
  match c with
  | [b] => if b ≤ 127 then [b] else [239, 191, 189]
  | c => c

/-- A rune chunk satisfying Go's `unicode.IsSpace` (an invalid chunk decodes
as U+FFFD, which is not a space). -/
def isSpaceChunk (c : List Nat) : Bool := isSpaceRune (cpFront c)

/-- `strings.TrimSpace`: drop the leading and trailing runs of space runes;
the kept bytes are the original ones, as Go slices the original string. -/
def trimSpaceUni (l : List Nat) : List Nat :=
  (((runeSlices l).dropWhile isSpaceChunk).reverse.dropWhile isSpaceChunk).reverse.flatten

/-- ASCII bytes of a Lean string literal (used only for concrete ASCII
test inputs). -/
def strB (s : String) : List Nat := s.toList.map Char.toNat

/-! ### Model of Go's regexp for the fragment the program exercises

`NewMatcher` calls `regexp.Compile("^(?:" + v + ")$")` and `Matcher.Matches`
calls `re.MatchString(s)`.  The abstract syntax below covers literals, any
rune (`.`, which excludes newline by default), the text anchors `^`/`$`,
concatenation, alternation, and the star; `+` and `?` are desugared during
parsing exactly as their semantics dictate.  `MatchString` performs an
unanchored search for a match, as Go does; full-string behaviour of the
program's patterns comes solely from the `^(?:...)$` wrapping. -/

inductive RE : Type
  | eps : RE
  | lit : Nat → RE
  | dot : RE
  | caret : RE
  | dollar : RE
  | cat : RE → RE → RE
  | alt : RE → RE → RE
  | star : RE → RE
deriving DecidableEq, Repr

/-- Escaped atom `\c` in a pattern: Go accepts the usual control escapes and
any escaped ASCII punctuation as a literal.  Escapes the model does not
cover (classes like `\d`, hex escapes, …) are rejected. -/
def escAtom (c : Nat) : Option RE :=
  if c = 110 then some (.lit 10)        -- n: newline
  else if c = 116 then some (.lit 9)    -- t: tab
  else if c = 114 then some (.lit 13)   -- r
  else if c = 102 then some (.lit 12)   -- f
  else if c = 118 then some (.lit 11)   -- v
  else if c = 97 then some (.lit 7)     -- a
  else if (33 ≤ c && c ≤ 47) || (58 ≤ c && c ≤ 64) || (91 ≤ c && c ≤ 94) ||
          c = 96 || (123 ≤ c && c ≤ 126) then some (.lit c)
  else none

/-- After one repetition operator Go admits a non-greedy `?` marker (same
language, so the same AST here) but rejects a further stacked repetition
operator (`invalid nested repetition operator`). -/
def postfixLazy (r : RE) : List Nat → Option (RE × List Nat)
  | 63 :: 42 :: _ => none
  | 63 :: 43 :: _ => none
  | 63 :: 63 :: _ => none
  | 63 :: rest => some (r, rest)
  | 42 :: _ => none
  | 43 :: _ => none
  | rest => some (r, rest)

mutual

/-- Alternation level of the pattern grammar. -/
def parseAlt : Nat → List Nat → Option (RE × List Nat)
  | 0, _ => none
  | fuel + 1, s =>
    match parseConcat fuel s with
    | none => none
    | some (r, rest) =>
      match rest with
      | 124 :: rest2 =>
        match parseAlt fuel rest2 with
        | none => none
        | some (r2, rest3) => some (.alt r r2, rest3)
      | _ => some (r, rest)

/-- Concatenation level: a (possibly empty) run of factors, stopping at the
end of the pattern, a closing parenthesis, or an alternation bar. -/
def parseConcat : Nat → List Nat → Option (RE × List Nat)
  | 0, _ => none
  | fuel + 1, s =>
    if s = [] || s.head? = some 41 || s.head? = some 124 then some (.eps, s)
    else
      match parseFactor fuel s with
      | none => none
      | some (r, rest) =>
        match parseConcat fuel rest with
        | none => none
        | some (r2, rest2) => some (.cat r r2, rest2)

/-- A factor: an atom with an optional repetition operator. -/
def parseFactor : Nat → List Nat → Option (RE × List Nat)
  | 0, _ => none
  | fuel + 1, s =>
    match parseAtom fuel s with
    | none => none
    | some (r, rest) =>
      match rest with
      | 42 :: rest2 => postfixLazy (.star r) rest2              -- r*
      | 43 :: rest2 => postfixLazy (.cat r (.star r)) rest2     -- r+
      | 63 :: rest2 => postfixLazy (.alt r .eps) rest2          -- r?
      | _ => some (r, rest)

/-- An atom: group, `.`, `^`, `$`, escape, or a literal byte.  Character
classes (`[`), counted repetition (`{`), `(?`-flags other than `(?:`, and
non-ASCII pattern bytes lie outside the modelled fragment and are rejected;
a bare repetition operator is a Go parse error as well. -/
def parseAtom : Nat → List Nat → Option (RE × List Nat)
  | 0, _ => none
  | fuel + 1, s =>
    match s with
    | [] => none
    | 40 :: 63 :: 58 :: body =>                                  -- (?:
      (match parseAlt fuel body with
       | some (r, 41 :: rest2) => some (r, rest2)
       | _ => none)
    | 40 :: 63 :: _ => none
    | 40 :: body =>                                              -- capture group
      (match parseAlt fuel body with
       | some (r, 41 :: rest2) => some (r, rest2)
       | _ => none)
    | 46 :: rest => some (.dot, rest)                            -- .
    | 94 :: rest => some (.caret, rest)                          -- ^
    | 36 :: rest => some (.dollar, rest)                         -- $
    | 92 :: c :: rest => (escAtom c).map (fun r => (r, rest))    -- backslash
    | 92 :: [] => none
    | b :: rest =>
      if b = 41 || b = 124 || b = 42 || b = 43 || b = 63 ||
         b = 91 || b = 123 || 128 ≤ b then none
      else some (.lit b, rest)

end

/-- `regexp.Compile` on the modelled fragment: parse the whole pattern, with
no bytes left over. -/
def regexpCompile (p : List Nat) : Option RE :=
  match parseAlt (4 * p.length + 16) p with
  | some (r, []) => some r
  | _ => none

/-- Structural size of a regular expression (used to bound the matcher's
fuel). -/
def reSize : RE → Nat
  | .eps => 1
  | .lit _ => 1
  | .dot => 1
  | .caret => 1
  | .dollar => 1
  | .cat a b => 1 + reSize a + reSize b
  | .alt a b => 1 + reSize a + reSize b
  | .star a => 1 + reSize a

/-- All ways a regular expression can match a prefix of `s`, returned as the
list of possible remainders.  `n` is the length of the whole subject (so the
`^` assertion holds exactly when nothing has been consumed yet) and `fuel`
bounds the recursion; a star only iterates over strictly consuming matches,
mirroring the finite match semantics of Go's engine. -/
def mrun : Nat → Nat → RE → List Nat → List (List Nat)
  | 0, _, _, _ => []
  | fuel + 1, n, re, s =>
    match re with
    | .eps => [s]
    | .lit c =>
      (match s with
       | [] => []
       | b :: t => if b = c then [t] else [])
    | .dot =>
      if s = [] then [] else if s.head? = some 10 then [] else [advanceRune s]
    | .caret => if s.length = n then [s] else []
    | .dollar => if s = [] then [s] else []
    | .cat a b => (mrun fuel n a s).flatMap (fun t => mrun fuel n b t)
    | .alt a b => mrun fuel n a s ++ mrun fuel n b s
    | .star a =>
      s :: (mrun fuel n a s).flatMap
        (fun t => if t.length < s.length then mrun fuel n (.star a) t else [])

/-- Fuel that amply covers the recursion depth of `mrun` on the modelled
patterns: a star iterates at most `|s|` times, each level descending through
at most `reSize` constructors. -/
def matchFuel (re : RE) (s : List Nat) : Nat :=
  (reSize re + 2) * (s.length + 2) + 4

/-- `regexp.MatchString`: search for a match starting at any position. -/
def reMatchString (re : RE) (s : List Nat) : Bool :=
  (List.range (s.length + 1)).any
    (fun i => !(mrun (matchFuel re s) s.length re (s.drop i)).isEmpty)

/-- Decidable equality for `Except`, so concrete runs of the fallible
operations can be checked by `decide`. -/
instance {e a : Type} [DecidableEq e] [DecidableEq a] : DecidableEq (Except e a) := fun x y =>
  match x, y with
  | .ok u, .ok v => if h : u = v then .isTrue (by rw [h]) else .isFalse (by simp [h])
  | .error u, .error v => if h : u = v then .isTrue (by rw [h]) else .isFalse (by simp [h])
  | .ok _, .error _ => .isFalse (by simp)
  | .error _, .ok _ => .isFalse (by simp)

/-! ### Matcher data model (pkg/vendor/matcher.go) -/

/-- `MatchType` enum: `=`, `!=`, `=~`, `!~`. -/
inductive MatchType : Type
  | matchEqual
  | matchNotEqual
  | matchRegexp
  | matchNotRegexp
deriving DecidableEq, Repr

/-- `MatchType.String()`: the operator's byte rendering. -/
def matchTypeBytes : MatchType → List Nat
  | .matchEqual => [61]             -- =
  | .matchNotEqual => [33, 61]      -- !=
  | .matchRegexp => [61, 126]       -- =~
  | .matchNotRegexp => [33, 126]    -- !~

/-- A label matcher: `Type`, `Name`, `Value`, and the private compiled
regex `re`, populated only for the regex match types. -/
structure Matcher : Type where
  mtype : MatchType
  name : List Nat
  value : List Nat
  re : Option RE
deriving DecidableEq, Repr

/-- Error taxonomy of the parsing pipeline.  In Go all of these are plain
`error` values; the spec distinguishes the regex-compilation failure
(`PatternError`) from the three syntax failures (`SyntaxError`). -/
inductive ParseErr : Type
  | badMatcherFormat   -- "bad matcher format: …"
  | valueNotUtf8       -- "matcher value not valid UTF-8: …"
  | unescapedQuote     -- "matcher value contains unescaped double quote: …"
  | patternError       -- regexp.Compile error surfaced by NewMatcher
deriving DecidableEq, Repr

/-- The spec's `SyntaxError` kind: every parse failure except the distinct
`PatternError`. -/
def isSyntaxErr : ParseErr → Bool
  | .patternError => false
  | _ => true

/-- `NewMatcher`: build a matcher, compiling `"^(?:" + v + ")$"` when the
type is a regex type and failing with the compilation error otherwise. -/
def anchorPattern (v : List Nat) : List Nat := [94, 40, 63, 58] ++ v ++ [41, 36]

def NewMatcher (t : MatchType) (n v : List Nat) : Except ParseErr Matcher :=
  if t = .matchRegexp || t = .matchNotRegexp then
    match regexpCompile (anchorPattern v) with
    | none => .error .patternError
    | some r => .ok ⟨t, n, v, some r⟩
  else .ok ⟨t, n, v, none⟩

/-- `openMetricsEscape`: replace `\` by `\\`, newline by `\n`, `"` by `\"`
(all patterns are single bytes, so the simultaneous `strings.Replacer` is a
left-to-right byte scan). -/
def openMetricsEscape : List Nat → List Nat
  | [] => []
  | 92 :: rest => 92 :: 92 :: openMetricsEscape rest
  | 10 :: rest => 92 :: 110 :: openMetricsEscape rest
  | 34 :: rest => 92 :: 34 :: openMetricsEscape rest
  | b :: rest => b :: openMetricsEscape rest

/-- `Matcher.String()`: `name`, the operator, then the escaped value in
double quotes. -/
def matcherString (m : Matcher) : List Nat :=
  m.name ++ matchTypeBytes m.mtype ++ [34] ++ openMetricsEscape m.value ++ [34]

/-- `Matcher.Matches`: compare against the matcher's value, directly or via
the compiled regex.  A regex-typed matcher built outside `NewMatcher` with
`re` unset would make Go dereference a nil pointer; the model returns
`false` on that unreachable shape. -/
def matcherMatches (m : Matcher) (s : List Nat) : Bool :=
  match m.mtype with
  | .matchEqual => s = m.value
  | .matchNotEqual => s ≠ m.value
  | .matchRegexp =>
    (match m.re with
     | some r => reMatchString r s
     | none => false)
  | .matchNotRegexp =>
    (match m.re with
     | some r => !reMatchString r s
     | none => false)

/-- A label set: label name to label value.  Go map indexing yields the
empty string for an absent key. -/
abbrev LabelSet := List (List Nat × List Nat)

def lsetLookup (lset : LabelSet) (k : List Nat) : List Nat :=
  match lset.find? (fun p => p.1 == k) with
  | some p => p.2
  | none => []

/-- `Matchers.Matches`: every matcher must match the value looked up under
its name (absent labels read as the empty string). -/
def matchersMatches (ms : List Matcher) (lset : LabelSet) : Bool :=
  ms.all (fun m => matcherMatches m (lsetLookup lset m.name))

/-! ### ParseMatcher (pkg/vendor/matcher.go) -/

/-- Go `\s` of the matcher regex: `[\t\n\f\r ]`. -/
def isSpaceB (b : Nat) : Bool := b = 32 || b = 9 || b = 10 || b = 12 || b = 13

/-- Bytes allowed anywhere in a label name: `[a-zA-Z0-9_:]`. -/
def isNameB (b : Nat) : Bool :=
  (65 ≤ b && b ≤ 90) || (97 ≤ b && b ≤ 122) || (48 ≤ b && b ≤ 57) || b = 95 || b = 58

/-- Bytes allowed to start a label name: `[a-zA-Z_:]`. -/
def isNameStartB (b : Nat) : Bool :=
  (65 ≤ b && b ≤ 90) || (97 ≤ b && b ≤ 122) || b = 95 || b = 58

/-- Trim `\s` bytes from both ends (the effect of the `\s*` groups around
the lazy `(?s).*?` value capture). -/
def trimSpaceB (l : List Nat) : List Nat :=
  match (l.dropWhile isSpaceB).reverse.dropWhile isSpaceB with
  | r => r.reverse

/-- The effect of matching `^\s*([a-zA-Z_:][a-zA-Z0-9_:]*)\s*(=~|=|!=|!~)\s*((?s).*?)\s*$`
against the input: leading whitespace, then the maximal name run (whose
first byte must be a name-start byte), optional whitespace, one of the four
operators (`=~` tried before `=`, as the Go pattern orders them), and the
rest of the input with surrounding whitespace trimmed as the third capture
group.  All three character classes are ASCII-only, so byte scanning agrees
with Go's rune scanning. -/
def findMatcherParts (s : List Nat) : Option (List Nat × MatchType × List Nat) :=
  let s1 := s.dropWhile isSpaceB
  let nm := s1.takeWhile isNameB
  let rest := s1.dropWhile isNameB
  match nm.head? with
  | none => none
  | some b0 =>
    if isNameStartB b0 then
      match rest.dropWhile isSpaceB with
      | 61 :: 126 :: r => some (nm, .matchRegexp, trimSpaceB r)
      | 61 :: r => some (nm, .matchEqual, trimSpaceB r)
      | 33 :: 61 :: r => some (nm, .matchNotEqual, trimSpaceB r)
      | 33 :: 126 :: r => some (nm, .matchNotRegexp, trimSpaceB r)
      | _ => none
    else none

/-- The unescaping loop of `ParseMatcher` over `rawValue`.  Go iterates
runes with their byte offsets and keeps an `escaped` flag; the flag is only
ever set by a `\` byte that is not the last byte, so the loop is the
rune-structured recursion below: the guards `i < len(rawValue)-1` on the
one-byte runes `\` and `"` become "the tail is non-empty", and a rune in
any other position is copied through `WriteRune`.  The 1/2/3/4-byte rune
cases are spelt out as in `utf8Valid`; an invalid front byte is copied as
the U+FFFD replacement bytes with an advance of one, exactly Go's `range`
behaviour (unreachable after the `utf8.ValidString` guard but defined
identically). -/
def unescapeGo : List Nat → Except ParseErr (List Nat)
  | [] => .ok []
  | b :: rest =>
    if b = 92 then
      match rest with
      | [] => .ok [92]                    -- '\\' as last byte: literal
      | c :: r1 =>
        if c = 110 then (fun l => 10 :: l) <$> unescapeGo r1        -- \n
        else if c = 34 then (fun l => 34 :: l) <$> unescapeGo r1    -- \"
        else if c = 92 then (fun l => 92 :: l) <$> unescapeGo r1    -- backslash
        else if c ≤ 127 then (fun l => 92 :: c :: l) <$> unescapeGo r1
        else    -- spurious escape of a multi-byte (or invalid) rune
          match r1 with
          | [] => .ok [92, 239, 191, 189]
          | c2 :: r2 =>
            if valid2 c c2 then (fun l => 92 :: c :: c2 :: l) <$> unescapeGo r2
            else
              match r2 with
              | [] => (fun l => 92 :: 239 :: 191 :: 189 :: l) <$> unescapeGo [c2]
              | c3 :: r3 =>
                if valid3 c c2 c3 then
                  (fun l => 92 :: c :: c2 :: c3 :: l) <$> unescapeGo r3
                else
                  match r3 with
                  | [] =>
                    (fun l => 92 :: 239 :: 191 :: 189 :: l) <$> unescapeGo [c2, c3]
                  | c4 :: r4 =>
                    if valid4 c c2 c3 c4 then
                      (fun l => 92 :: c :: c2 :: c3 :: c4 :: l) <$> unescapeGo r4
                    else
                      (fun l => 92 :: 239 :: 191 :: 189 :: l) <$>
                        unescapeGo (c2 :: c3 :: c4 :: r4)
    else if b = 34 then
      match rest with
      | [] => .ok []                      -- trailing quote: dropped
      | _ :: _ => .error .unescapedQuote
    else if b ≤ 127 then (fun l => b :: l) <$> unescapeGo rest
    else    -- ordinary multi-byte (or invalid) rune: copied
      match rest with
      | [] => .ok [239, 191, 189]
      | c2 :: r2 =>
        if valid2 b c2 then (fun l => b :: c2 :: l) <$> unescapeGo r2
        else
          match r2 with
          | [] => (fun l => 239 :: 191 :: 189 :: l) <$> unescapeGo [c2]
          | c3 :: r3 =>
            if valid3 b c2 c3 then (fun l => b :: c2 :: c3 :: l) <$> unescapeGo r3
            else
              match r3 with
              | [] => (fun l => 239 :: 191 :: 189 :: l) <$> unescapeGo [c2, c3]
              | c4 :: r4 =>
                if valid4 b c2 c3 c4 then
                  (fun l => b :: c2 :: c3 :: c4 :: l) <$> unescapeGo r4
                else
                  (fun l => 239 :: 191 :: 189 :: l) <$> unescapeGo (c2 :: c3 :: c4 :: r4)

/-- `ParseMatcher`: match the three-token grammar, strip one leading double
quote from the value, require valid UTF-8, unescape, and build the matcher. -/
def ParseMatcher (s : List Nat) : Except ParseErr Matcher :=
  match findMatcherParts s with
  | none => .error .badMatcherFormat
  | some (nm, t, v) =>
    let rawValue := trimPrefixB 34 v
    if utf8Valid rawValue then
      match unescapeGo rawValue with
      | .error e => .error e
      | .ok value => NewMatcher t nm value
    else .error .valueNotUtf8

/-! ### ParseMatchers (pkg/vendor/matcher.go) -/

/-- State threaded through `ParseMatchers`' tokenizing loop: the flushed
tokens, the current token builder, and the `insideQuotes` / `escaped`
flags. -/
structure TokState : Type where
  tokens : List (List Nat)
  cur : List Nat
  insideQuotes : Bool
  escaped : Bool
deriving DecidableEq, Repr

/-- The tokenizing loop of `ParseMatchers` over the rune sequence of the
input (`for _, r := range s`, i.e. `runeSlices`): a comma outside quotes
flushes the current token (and is not written); otherwise a quote toggles
`insideQuotes` unless consumed by `escaped` (which it then clears), a
backslash toggles `escaped`, a comma inside quotes changes neither flag,
and any other rune clears `escaped`; the rune is then written to the
current token (`emitChunk`, reproducing Go's U+FFFD replacement on invalid
input). -/
def tokenizeGo : List (List Nat) → TokState → TokState
  | [], st => st
  | c :: cs, st =>
    if c = [44] && !st.insideQuotes then
      tokenizeGo cs ⟨st.tokens ++ [st.cur], [], st.insideQuotes, st.escaped⟩
    else if c = [34] then
      if st.escaped then     -- escaped quote: consume the escape, no toggle
        tokenizeGo cs ⟨st.tokens, st.cur ++ [34], st.insideQuotes, false⟩
      else                   -- unescaped quote: toggle the quoted region
        tokenizeGo cs ⟨st.tokens, st.cur ++ [34], !st.insideQuotes, false⟩
    else if c = [92] then
      tokenizeGo cs ⟨st.tokens, st.cur ++ [92], st.insideQuotes, !st.escaped⟩
    else if c = [44] then    -- comma inside quotes: written, flags untouched
      tokenizeGo cs ⟨st.tokens, st.cur ++ [44], st.insideQuotes, st.escaped⟩
    else                     -- any other rune: written, escape cleared
      tokenizeGo cs ⟨st.tokens, st.cur ++ emitChunk c, st.insideQuotes, false⟩

/-- The `{`/`}` preprocessing of `ParseMatchers`: strip one optional
leading `{` and one optional trailing `}`, each independently. -/
def stripBraces (s : List Nat) : List Nat := trimSuffixB 125 (trimPrefixB 123 s)

/-- The token list `ParseMatchers` feeds to `ParseMatcher`: the flushed
tokens, plus the final token trimmed of surrounding white space when that
leaves it non-empty. -/
def goTokens (s : List Nat) : List (List Nat) :=
  let st := tokenizeGo (runeSlices (stripBraces s)) ⟨[], [], false, false⟩
  if trimSpaceUni st.cur ≠ [] then st.tokens ++ [trimSpaceUni st.cur] else st.tokens

/-- The parsing loop of `ParseMatchers`: each token through `ParseMatcher`
in order, aborting with the first failure. -/
def parseTokens : List (List Nat) → Except ParseErr (List Matcher)
  | [] => .ok []
  | t :: ts =>
    match ParseMatcher t with
    | .error e => .error e
    | .ok m =>
      match parseTokens ts with
      | .error e => .error e
      | .ok ms => .ok (m :: ms)

/-- `ParseMatchers`. -/
def ParseMatchers (s : List Nat) : Except ParseErr (List Matcher) :=
  parseTokens (goTokens s)

/-! ### Silence lifecycle model (vendored types + pkg/alertmanager/alerts.go) -/

/-- `SilenceState`: the three lifecycle states. -/
inductive SilenceState : Type
  | pending
  | active
  | expired
deriving DecidableEq, Repr

/-- `CalcSilenceState`: the state a silence with the given start and end
would have at instant `now` (Go reads `time.Now()`; the model passes it
explicitly).  `t.Before(u)` is `t < u`. -/
def CalcSilenceState (start «end» now : Int) : SilenceState :=
  if now < start then .pending
  else if now < «end» then .active
  else .expired

/-- The vendored `Silence` entity. -/
structure Silence : Type where
  id : List Nat
  matchers : List Matcher
  startsAt : Int
  endsAt : Int
  updatedAt : Int
  createdBy : List Nat
  comment : List Nat
  status : SilenceState
deriving DecidableEq, Repr

/-- `Resolved` (pkg/alertmanager/alerts.go): false for the zero end time,
otherwise `!s.EndsAt.After(time.Now())`, i.e. `endsAt ≤ now`.  The zero
`time.Time` is embedded as `0`. -/
def Resolved (s : Silence) (now : Int) : Bool :=
  if s.endsAt = 0 then false else decide (s.endsAt ≤ now)

/-! ### The bot's silence operation (pkg/telegram/bot.go) -/

/-- A candidate alert as the bot sees it: its fingerprint
(`alert.Fingerprint().String()`) and its rendered label set
(`alert.Labels.String()`), both computed by the upstream collaborator. -/
structure Alert : Type where
  fingerprint : List Nat
  labels : List Nat
deriving DecidableEq, Repr

/-- Failure modes of the bot's `silence` operation.  The two `errors.New`
messages are distinct errors; a labels-parsing failure propagates the
`ParseMatchers` error. -/
inductive SilenceOpErr : Type
  | noAlerts             -- "no alerts found right now"
  | notFound             -- "no matches found for silence!"
  | parseFailure : ParseErr → SilenceOpErr
deriving DecidableEq, Repr

/-- The bot's `silence(fingerPrint, duration)` (pkg/telegram/bot.go): list
the current alerts (supplied here by the caller), fail on an empty list,
scan for the first alert whose fingerprint matches, parse its labels into
matchers and submit a silence from `now` to `now + duration`; if the scan
matches nothing the operation fails with the distinct not-found error.
The constructed silence is returned instead of being POSTed. -/
def botSilence (fingerPrint : List Nat) (duration : Int) (now : Int)
    (alerts : List Alert) : Except SilenceOpErr Silence :=
  if alerts.length = 0 then .error .noAlerts
  else
    match alerts.find? (fun a => a.fingerprint == fingerPrint) with
    | none => .error .notFound
    | some alert =>
      match ParseMatchers alert.labels with
      | .error e => .error (.parseFailure e)
      | .ok ms =>
        .ok ⟨[], ms, now, now + duration, now,
             strB "alertmanager-bot", strB "Enacted by administrator command",
             CalcSilenceState now (now + duration) now⟩

/-! ## Claim C4 — CalcSilenceState -/

/-- **C4 (counterexample).** The claim's rule "Expired when now ≥ endsAt"
fails on an inverted interval: with startsAt = 5, endsAt = 3, now = 4 we
have now ≥ endsAt, yet `CalcSilenceState` returns Pending (the `now <
startsAt` guard is tested first), not Expired. -/
theorem calcSilenceState_inverted_cex :
    (3 : Int) ≤ 4 ∧ CalcSilenceState 5 3 4 = SilenceState.pending ∧
      SilenceState.pending ≠ SilenceState.expired := by decide

/-- **C4 (amended).** `CalcSilenceState` is total and returns Pending when
now < startsAt, Active when startsAt ≤ now < endsAt, and Expired when
now ≥ endsAt *and now ≥ startsAt*; on an inverted interval with
endsAt ≤ now < startsAt the Pending rule takes priority.  Pending and
Active are exactly characterised by their conditions for every ordering,
including the degenerate startsAt = endsAt. -/
theorem calcSilenceState_cases (s e now : Int) :
    (now < s → CalcSilenceState s e now = SilenceState.pending) ∧
    (s ≤ now → now < e → CalcSilenceState s e now = SilenceState.active) ∧
    (s ≤ now → e ≤ now → CalcSilenceState s e now = SilenceState.expired) ∧
    (CalcSilenceState s e now = SilenceState.pending ↔ now < s) ∧
    (CalcSilenceState s e now = SilenceState.active ↔ s ≤ now ∧ now < e) := by
  unfold CalcSilenceState
  split_ifs <;> simp_all <;> omega

/-- Witness for `calcSilenceState_cases` at concrete instants. -/
theorem calcSilenceState_cases_witness :
    CalcSilenceState 0 10 (-3) = SilenceState.pending ∧
    CalcSilenceState 0 10 5 = SilenceState.active ∧
    CalcSilenceState 0 10 12 = SilenceState.expired :=
  ⟨(calcSilenceState_cases 0 10 (-3)).1 (by decide),
   (calcSilenceState_cases 0 10 5).2.1 (by decide) (by decide),
   (calcSilenceState_cases 0 10 12).2.2.1 (by decide) (by decide)⟩

/-! ## Claim C7 — Resolved -/

/-- **C7.** `Resolved` is true exactly when the silence's `endsAt` is
non-zero and `now ≥ endsAt`; in particular a silence whose `endsAt` is the
zero value is never resolved, whatever `now` is. -/
theorem resolved_iff (s : Silence) (now : Int) :
    (Resolved s now = true ↔ s.endsAt ≠ 0 ∧ now ≥ s.endsAt) ∧
    (s.endsAt = 0 → Resolved s now = false) := by
  unfold Resolved
  split_ifs <;> simp_all <;> omega

/-- Witness for `resolved_iff`: an ended silence is resolved, a zero-ended
one is not. -/
theorem resolved_iff_witness :
    Resolved ⟨[], [], 0, 5, 0, [], [], SilenceState.active⟩ 7 = true ∧
    Resolved ⟨[], [], 0, 0, 0, [], [], SilenceState.active⟩ 7 = false :=
  ⟨(resolved_iff ⟨[], [], 0, 5, 0, [], [], SilenceState.active⟩ 7).1.mpr (by decide),
   (resolved_iff ⟨[], [], 0, 0, 0, [], [], SilenceState.active⟩ 7).2 (by decide)⟩

/-! ## Claim C6 — the bot's silence operation -/

/-- **C6.** With an empty candidate list the bot's silence operation fails
with the distinct no-alerts error; with a non-empty list containing no
matching fingerprint it fails with the not-found error; and when a matching
fingerprint exists it parses that alert's label string with `ParseMatchers`
and builds a Silence with `startsAt = now` and `endsAt = now + duration`. -/
theorem botSilence_spec (fp : List Nat) (dur now : Int) (alerts : List Alert) :
    (alerts = [] → botSilence fp dur now alerts = .error .noAlerts) ∧
    (alerts ≠ [] → (∀ a ∈ alerts, a.fingerprint ≠ fp) →
      botSilence fp dur now alerts = .error .notFound) ∧
    (∀ a, alerts.find? (fun x => x.fingerprint == fp) = some a →
      ∀ ms, ParseMatchers a.labels = .ok ms →
        botSilence fp dur now alerts =
          .ok ⟨[], ms, now, now + dur, now, strB "alertmanager-bot",
               strB "Enacted by administrator command",
               CalcSilenceState now (now + dur) now⟩) := by
  refine ⟨?_, ?_, ?_⟩
  · intro h; subst h; rfl
  · intro h1 h2
    have hfind : alerts.find? (fun x => x.fingerprint == fp) = none := by
      rw [List.find?_eq_none]
      intro a ha
      simpa using h2 a ha
    simp [botSilence, hfind, List.length_eq_zero, h1]
  · intro a ha ms hms
    have hne : alerts ≠ [] := by
      intro h; subst h; simp at ha
    simp [botSilence, List.length_eq_zero, hne, ha, hms]

/-- Witness for `botSilence_spec` on concrete alert lists. -/
theorem botSilence_spec_witness :
    botSilence [1] 60 100 [] = .error .noAlerts ∧
    botSilence [1] 60 100 [⟨[2], [97, 61, 98]⟩] = .error .notFound ∧
    botSilence [1] 60 100 [⟨[1], [99, 61, 100]⟩] =
      .ok ⟨[], [⟨.matchEqual, [99], [100], none⟩], 100, 100 + 60, 100,
           strB "alertmanager-bot", strB "Enacted by administrator command",
           CalcSilenceState 100 (100 + 60) 100⟩ :=
  ⟨(botSilence_spec [1] 60 100 []).1 rfl,
   (botSilence_spec [1] 60 100 [⟨[2], [97, 61, 98]⟩]).2.1 (by decide) (by decide),
   (botSilence_spec [1] 60 100 [⟨[1], [99, 61, 100]⟩]).2.2
     ⟨[1], [99, 61, 100]⟩ (by decide)
     [⟨.matchEqual, [99], [100], none⟩] (by decide)⟩

/-! ## Claim C3 — Matchers.Matches -/

/-- **C3.** `matchersMatches` is true iff every matcher in the list matches
the value looked up under its name, where an absent label reads as the
empty string; per match type, Equal requires exact equality with the
matcher's value, NotEqual its negation, Regexp that the compiled anchored
regex matches, and NotRegexp that it does not; the empty matcher list
matches every label set vacuously. -/
theorem matchersMatches_spec (ms : List Matcher) (lset : LabelSet) :
    (matchersMatches ms lset = true ↔
      ∀ m ∈ ms, matcherMatches m (lsetLookup lset m.name) = true) ∧
    (matchersMatches [] lset = true) ∧
    (∀ k, (∀ p ∈ lset, p.1 ≠ k) → lsetLookup lset k = []) ∧
    (∀ m s, m.mtype = .matchEqual →
      (matcherMatches m s = true ↔ s = m.value)) ∧
    (∀ m s, m.mtype = .matchNotEqual →
      (matcherMatches m s = true ↔ s ≠ m.value)) ∧
    (∀ m s r, m.mtype = .matchRegexp → m.re = some r →
      (matcherMatches m s = true ↔ reMatchString r s = true)) ∧
    (∀ m s r, m.mtype = .matchNotRegexp → m.re = some r →
      (matcherMatches m s = true ↔ reMatchString r s = false)) := by
  refine ⟨?_, rfl, ?_, ?_, ?_, ?_, ?_⟩
  · simp [matchersMatches, List.all_eq_true]
  · intro k hk
    have hfind : lset.find? (fun p => p.1 == k) = none := by
      rw [List.find?_eq_none]
      intro p hp
      simpa using hk p hp
    simp [lsetLookup, hfind]
  · intro m s h; simp [matcherMatches, h]
  · intro m s h; simp [matcherMatches, h]
  · intro m s r h hr; simp [matcherMatches, h, hr]
  · intro m s r h hr; simp [matcherMatches, h, hr]

/-- Witness for `matchersMatches_spec` at a concrete matcher list and label
set. -/
theorem matchersMatches_spec_witness :
    (matchersMatches [⟨.matchEqual, [97], [98], none⟩]
        [([97], [98])] = true ↔
      ∀ m ∈ [(⟨.matchEqual, [97], [98], none⟩ : Matcher)],
        matcherMatches m (lsetLookup [([97], [98])] m.name) = true) ∧
    matchersMatches [] [([97], [98])] = true ∧
    lsetLookup [([97], [98])] [99] = [] ∧
    (matcherMatches ⟨.matchEqual, [97], [98], none⟩ [98] = true ↔
      ([98] : List Nat) = [98]) :=
  ⟨(matchersMatches_spec [⟨.matchEqual, [97], [98], none⟩] [([97], [98])]).1,
   (matchersMatches_spec [] [([97], [98])]).2.1,
   (matchersMatches_spec [] [([97], [98])]).2.2.1 [99] (by decide),
   (matchersMatches_spec [] [([97], [98])]).2.2.2.1
     ⟨.matchEqual, [97], [98], none⟩ [98] rfl⟩

/-! ## Claim C5 — NewMatcher and the compiled regex invariant -/

/-- Inversion of a successful `NewMatcher`. -/
theorem newMatcher_ok_inv (t : MatchType) (n v : List Nat) (m : Matcher)
    (h : NewMatcher t n v = .ok m) :
    m.mtype = t ∧ m.name = n ∧ m.value = v ∧
    ((t = .matchRegexp ∨ t = .matchNotRegexp) →
      ∃ r, regexpCompile (anchorPattern v) = some r ∧ m.re = some r) ∧
    (¬(t = .matchRegexp ∨ t = .matchNotRegexp) → m.re = none) := by
  unfold NewMatcher at h
  by_cases ht : t = .matchRegexp ∨ t = .matchNotRegexp
  · have ht' : (t = .matchRegexp || t = .matchNotRegexp) = true := by
      rcases ht with h1 | h1 <;> simp [h1]
    rw [if_pos ht'] at h
    cases hc : regexpCompile (anchorPattern v) with
    | none => rw [hc] at h; exact absurd h (by simp)
    | some r =>
      rw [hc] at h
      simp only [Except.ok.injEq] at h
      subst h
      exact ⟨rfl, rfl, rfl, fun _ => ⟨r, rfl, rfl⟩, fun hn => absurd ht hn⟩
  · have ht' : ¬((t = .matchRegexp || t = .matchNotRegexp) = true) := by
      simp only [Bool.or_eq_true, decide_eq_true_eq]
      exact ht
    rw [if_neg ht'] at h
    simp only [Except.ok.injEq] at h
    subst h
    exact ⟨rfl, rfl, rfl, fun hr => absurd hr ht, fun _ => rfl⟩

/-- Inversion of a successful `ParseMatcher`: the pipeline stages it went
through. -/
theorem parseMatcher_ok_inv (s : List Nat) (m : Matcher)
    (h : ParseMatcher s = .ok m) :
    ∃ nm t v, findMatcherParts s = some (nm, t, v) ∧
      utf8Valid (trimPrefixB 34 v) = true ∧
      ∃ value, unescapeGo (trimPrefixB 34 v) = .ok value ∧
        NewMatcher t nm value = .ok m := by
  unfold ParseMatcher at h
  cases hf : findMatcherParts s with
  | none => rw [hf] at h; exact absurd h (by simp)
  | some parts =>
    obtain ⟨nm, t, v⟩ := parts
    rw [hf] at h
    simp only at h
    by_cases hv : utf8Valid (trimPrefixB 34 v) = true
    · rw [if_pos hv] at h
      cases hu : unescapeGo (trimPrefixB 34 v) with
      | error e => rw [hu] at h; exact absurd h (by simp)
      | ok value =>
        rw [hu] at h
        exact ⟨nm, t, v, rfl, hv, value, hu, h⟩
    · rw [if_neg hv] at h
      exact absurd h (by simp)

/-- The compiled regex of the `statuscode=~"5.."` example. -/
def statuscodeMatcher : Matcher :=
  ⟨.matchRegexp, strB "statuscode", strB "5..",
   some (.cat .caret
     (.cat (.cat (.lit 53) (.cat .dot (.cat .dot .eps))) (.cat .dollar .eps)))⟩

/-- **C5.** Every matcher built by `NewMatcher` (hence by `ParseMatcher`)
has a compiled regex present iff its type is Regexp or NotRegexp, and that
regex is the value anchored as `^(?:value)$`; parsing `statuscode=~"5.."`
gives a Regexp matcher matching `500` and `599` but not `50` or `5000`;
and `NewMatcher` fails with the distinct pattern error when the anchored
pattern does not compile, as for the value `(`. -/
theorem newMatcher_regex_anchored :
    (∀ t n v m, NewMatcher t n v = .ok m →
      m.mtype = t ∧ m.name = n ∧ m.value = v ∧
      (m.re.isSome = true ↔ (t = .matchRegexp ∨ t = .matchNotRegexp)) ∧
      (∀ r, m.re = some r → regexpCompile (anchorPattern v) = some r)) ∧
    (∀ t n v, (t = .matchRegexp ∨ t = .matchNotRegexp) →
      regexpCompile (anchorPattern v) = none →
      NewMatcher t n v = .error .patternError) ∧
    (∀ s m, ParseMatcher s = .ok m →
      (m.re.isSome = true ↔ (m.mtype = .matchRegexp ∨ m.mtype = .matchNotRegexp))) ∧
    (ParseMatcher (strB "statuscode=~\"5..\"") = .ok statuscodeMatcher ∧
      matcherMatches statuscodeMatcher (strB "500") = true ∧
      matcherMatches statuscodeMatcher (strB "599") = true ∧
      matcherMatches statuscodeMatcher (strB "50") = false ∧
      matcherMatches statuscodeMatcher (strB "5000") = false) ∧
    ParseMatcher (strB "x=~\"(\"") = .error .patternError := by
  refine ⟨?_, ?_, ?_, by decide, by decide⟩
  · intro t n v m h
    obtain ⟨h1, h2, h3, h4, h5⟩ := newMatcher_ok_inv t n v m h
    refine ⟨h1, h2, h3, ?_, ?_⟩
    · constructor
      · intro hsome
        by_contra hn
        rw [h5 hn] at hsome
        simp at hsome
      · intro ht
        obtain ⟨r, _, hr⟩ := h4 ht
        simp [hr]
    · intro r hr
      by_cases ht : t = .matchRegexp ∨ t = .matchNotRegexp
      · obtain ⟨r', hc', hr'⟩ := h4 ht
        rw [hr] at hr'
        simp only [Option.some.injEq] at hr'
        rw [hc', hr']
      · rw [h5 ht] at hr
        exact absurd hr (by simp)
  · intro t n v ht hc
    have ht' : (t = .matchRegexp || t = .matchNotRegexp) = true := by
      rcases ht with h1 | h1 <;> simp [h1]
    unfold NewMatcher
    rw [if_pos ht', hc]
  · intro s m h
    obtain ⟨nm, t, v, _, _, value, _, hnew⟩ := parseMatcher_ok_inv s m h
    obtain ⟨h1, _, _, h4, h5⟩ := newMatcher_ok_inv t nm value m hnew
    subst h1
    constructor
    · intro hsome
      by_contra hn
      rw [h5 hn] at hsome
      simp at hsome
    · intro ht
      obtain ⟨r, _, hr⟩ := h4 ht
      simp [hr]

/-- Witness for `newMatcher_regex_anchored` on concrete matchers. -/
theorem newMatcher_regex_anchored_witness :
    ((⟨MatchType.matchEqual, [97], [98], none⟩ : Matcher).re.isSome = true ↔
      (MatchType.matchEqual = .matchRegexp ∨ MatchType.matchEqual = .matchNotRegexp)) ∧
    NewMatcher .matchRegexp [120] [40] = .error .patternError :=
  ⟨(newMatcher_regex_anchored.1 .matchEqual [97] [98]
      ⟨.matchEqual, [97], [98], none⟩ (by decide)).2.2.2.1,
   newMatcher_regex_anchored.2.1 .matchRegexp [120] [40] (Or.inl rfl) (by decide)⟩

/-! ## Claim C9 — the trailing quote is dropped unconditionally -/

/-- **C9.** `ParseMatcher` does not validate that value quoting is
balanced: a double quote that is the final character of the value token is
dropped even when the token does not start with a quote — over any token of
ordinary (ASCII, unquoted, unescaped) bytes the unescaper returns the bytes
with the one trailing quote removed — so `parseOne("foo=bar\"")` succeeds
with value `bar` instead of failing. -/
theorem parseMatcher_unbalanced_trailing_quote :
    (∀ bs, (∀ b ∈ bs, b ≠ 34 ∧ b ≠ 92 ∧ b ≤ 127) →
      unescapeGo (bs ++ [34]) = .ok bs) ∧
    ParseMatcher (strB "foo=bar\"") =
      .ok ⟨.matchEqual, strB "foo", strB "bar", none⟩ := by
  refine ⟨?_, by decide⟩
  intro bs h
  induction bs with
  | nil => decide
  | cons b r ih =>
    obtain ⟨h34, h92, h127⟩ := h b (by simp)
    have hr := ih (fun x hx => h x (by simp [hx]))
    rw [List.cons_append, unescapeGo.eq_def]
    simp only [if_neg h92, if_neg h34, if_pos h127, hr]
    rfl

/-- Witness for `parseMatcher_unbalanced_trailing_quote` at the token
`bar"`. -/
theorem parseMatcher_unbalanced_trailing_quote_witness :
    unescapeGo ([98, 97, 114] ++ [34]) = .ok [98, 97, 114] :=
  parseMatcher_unbalanced_trailing_quote.1 [98, 97, 114] (by decide)

/-! ## Claim C10 — interior empty tokens are not skipped -/

/-- An empty token anywhere in the list makes the token-parsing loop fail
(the empty string does not match the matcher grammar, and earlier failures
abort anyway). -/
theorem parseTokens_empty_mem (toks : List (List Nat)) (h : [] ∈ toks) :
    ∃ e, parseTokens toks = .error e := by
  induction toks with
  | nil => simp at h
  | cons t ts ih =>
    cases hp : ParseMatcher t with
    | error e => exact ⟨e, by simp [parseTokens, hp]⟩
    | ok m =>
      have ht : t ≠ [] := by
        intro hnil
        subst hnil
        have : ParseMatcher [] = .error .badMatcherFormat := by decide
        rw [this] at hp
        exact absurd hp (by simp)
      have hmem : [] ∈ ts := by
        rcases List.mem_cons.mp h with h1 | h1
        · exact absurd h1.symm ht
        · exact h1
      obtain ⟨e, he⟩ := ih hmem
      exact ⟨e, by simp [parseTokens, hp, he]⟩

set_option maxHeartbeats 2000000 in
/-- **C10.** `ParseMatchers` discards only the final empty or
whitespace-only token: whenever tokenization produces an interior empty
token (one ended by a comma outside quotes, as in `foo=bar,,dings=bums`),
that token reaches `ParseMatcher` unchanged, so the whole call fails with
an error — the empty token itself failing with the bad-matcher-format
syntax error — instead of the empty token being skipped. -/
theorem parseMatchers_interior_empty (s : List Nat) (h : [] ∈ goTokens s) :
    (∃ e, ParseMatchers s = .error e) ∧
    ParseMatcher [] = .error .badMatcherFormat ∧
    isSyntaxErr .badMatcherFormat = true ∧
    ParseMatchers (strB "foo=bar,,dings=bums") = .error .badMatcherFormat := by
  refine ⟨?_, by decide, by decide, by decide⟩
  exact parseTokens_empty_mem (goTokens s) h

set_option maxHeartbeats 2000000 in
/-- Witness for `parseMatchers_interior_empty` on `foo=bar,,dings=bums`. -/
theorem parseMatchers_interior_empty_witness :
    ∃ e, ParseMatchers (strB "foo=bar,,dings=bums") = .error e :=
  (parseMatchers_interior_empty (strB "foo=bar,,dings=bums") (by decide)).1

/-! ## Claim C1 — value unescaping in ParseMatcher -/

/-- **C1.** `ParseMatcher` unescapes the value token character by
character: one leading double quote, if present, is stripped (the value fed
to the unescaper is `trimPrefixB 34 v`); inside, `\n`, `\"` and `\\` map to
newline, double quote and backslash; a backslash followed by any other
character — an ordinary ASCII byte or a multi-byte rune — is kept as a
literal backslash followed by that character, not an error; an unescaped
double quote anywhere except as the final character fails with the
unescaped-quote syntax error (while a lone final quote is dropped); and a
value that is not valid UTF-8 fails with the not-valid-UTF-8 syntax error,
as for `foo="a"b"` and a value byte `0xFF` respectively. -/
theorem parseMatcher_value_unescaping :
    (∀ l, trimPrefixB 34 (34 :: l) = l) ∧
    (∀ b l, b ≠ 34 → trimPrefixB 34 (b :: l) = b :: l) ∧
    (∀ s nm t v, findMatcherParts s = some (nm, t, v) →
      ParseMatcher s =
        (if utf8Valid (trimPrefixB 34 v) then
          match unescapeGo (trimPrefixB 34 v) with
          | .error e => .error e
          | .ok value => NewMatcher t nm value
        else .error .valueNotUtf8)) ∧
    (∀ rest, unescapeGo (92 :: 110 :: rest) = (fun l => 10 :: l) <$> unescapeGo rest) ∧
    (∀ rest, unescapeGo (92 :: 34 :: rest) = (fun l => 34 :: l) <$> unescapeGo rest) ∧
    (∀ rest, unescapeGo (92 :: 92 :: rest) = (fun l => 92 :: l) <$> unescapeGo rest) ∧
    (∀ c rest, c ≠ 110 → c ≠ 34 → c ≠ 92 → c ≤ 127 →
      unescapeGo (92 :: c :: rest) = (fun l => 92 :: c :: l) <$> unescapeGo rest) ∧
    (∀ c c2 rest, valid2 c c2 = true →
      unescapeGo (92 :: c :: c2 :: rest) =
        (fun l => 92 :: c :: c2 :: l) <$> unescapeGo rest) ∧
    (∀ c rest, unescapeGo (34 :: c :: rest) = .error .unescapedQuote) ∧
    unescapeGo [34] = .ok [] ∧
    (∀ b rest, b ≠ 92 → b ≠ 34 → b ≤ 127 →
      unescapeGo (b :: rest) = (fun l => b :: l) <$> unescapeGo rest) ∧
    (∀ s nm t v, findMatcherParts s = some (nm, t, v) →
      utf8Valid (trimPrefixB 34 v) = false → ParseMatcher s = .error .valueNotUtf8) ∧
    ParseMatcher (strB "foo=\"a\"b\"") = .error .unescapedQuote ∧
    ParseMatcher [102, 61, 255] = .error .valueNotUtf8 ∧
    isSyntaxErr .unescapedQuote = true ∧ isSyntaxErr .valueNotUtf8 = true := by
  refine ⟨fun l => by simp [trimPrefixB], fun b l hb => by simp [trimPrefixB, hb],
    ?_, ?_, ?_, ?_, ?_, ?_, ?_, by decide, ?_, ?_, by decide, by decide, by decide,
    by decide⟩
  · intro s nm t v hf
    unfold ParseMatcher
    rw [hf]
  · intro rest
    rw [unescapeGo.eq_def]
    simp
  · intro rest
    rw [unescapeGo.eq_def]
    simp
  · intro rest
    rw [unescapeGo.eq_def]
    simp
  · intro c rest h110 h34 h92 h127
    rw [unescapeGo.eq_def]
    simp [h110, h34, h92, h127]
  · intro c c2 rest h2
    have hge : 194 ≤ c ∧ c ≤ 223 := by
      simp [valid2, contB] at h2
      omega
    rw [unescapeGo.eq_def]
    have h110 : c ≠ 110 := by omega
    have h34 : c ≠ 34 := by omega
    have h92 : c ≠ 92 := by omega
    have h127 : ¬c ≤ 127 := by omega
    simp [h110, h34, h92, h127, h2]
  · intro c rest
    rw [unescapeGo.eq_def]
    simp
  · intro b rest h92 h34 h127
    rw [unescapeGo.eq_def]
    simp [h92, h34, h127]
  · intro s nm t v hf hv
    unfold ParseMatcher
    rw [hf]
    simp [hv]

/-- Witness for `parseMatcher_value_unescaping` at concrete inputs. -/
theorem parseMatcher_value_unescaping_witness :
    trimPrefixB 34 [34, 98] = [98] ∧
    unescapeGo [92, 110, 97] = (fun l => 10 :: l) <$> unescapeGo [97] ∧
    unescapeGo [92, 120, 97] = (fun l => 92 :: 120 :: l) <$> unescapeGo [97] ∧
    unescapeGo [92, 195, 169, 97] =
      (fun l => 92 :: 195 :: 169 :: l) <$> unescapeGo [97] ∧
    unescapeGo [34, 98, 99] = .error .unescapedQuote ∧
    ParseMatcher [102, 61, 255] = .error .valueNotUtf8 :=
  ⟨parseMatcher_value_unescaping.1 [98],
   parseMatcher_value_unescaping.2.2.2.1 [97],
   parseMatcher_value_unescaping.2.2.2.2.2.2.1 120 [97]
     (by decide) (by decide) (by decide) (by decide),
   parseMatcher_value_unescaping.2.2.2.2.2.2.2.1 195 169 [97] (by decide),
   parseMatcher_value_unescaping.2.2.2.2.2.2.2.2.1 98 [99],
   parseMatcher_value_unescaping.2.2.2.2.2.2.2.2.2.2.2.2.2.1⟩

/-! ## Claim C2 — ParseMatchers tokenization -/

/-- Rewrite kit for `runeSlices`, one lemma per rune shape. -/
theorem runeSlices_nil : runeSlices [] = [] := rfl

theorem runeSlices_ascii (b : Nat) (rest : List Nat) (h : b ≤ 127) :
    runeSlices (b :: rest) = [b] :: runeSlices rest := by
  rw [runeSlices.eq_def]
  simp [h]

theorem runeSlices_two (b c2 : Nat) (rest : List Nat) (h2 : valid2 b c2 = true) :
    runeSlices (b :: c2 :: rest) = [b, c2] :: runeSlices rest := by
  have h1 : ¬b ≤ 127 := by simp [valid2, contB] at h2; omega
  rw [runeSlices.eq_def]
  simp [h1, h2]

theorem runeSlices_three (b c2 c3 : Nat) (rest : List Nat)
    (h2 : valid2 b c2 = false) (h3 : valid3 b c2 c3 = true) :
    runeSlices (b :: c2 :: c3 :: rest) = [b, c2, c3] :: runeSlices rest := by
  have h1 : ¬b ≤ 127 := by simp [valid3, contB] at h3; omega
  rw [runeSlices.eq_def]
  simp [h1, h2, h3]

theorem runeSlices_four (b c2 c3 c4 : Nat) (rest : List Nat)
    (h2 : valid2 b c2 = false) (h3 : valid3 b c2 c3 = false)
    (h4 : valid4 b c2 c3 c4 = true) :
    runeSlices (b :: c2 :: c3 :: c4 :: rest) = [b, c2, c3, c4] :: runeSlices rest := by
  have h1 : ¬b ≤ 127 := by simp [valid4, contB] at h4; omega
  rw [runeSlices.eq_def]
  simp [h1, h2, h3, h4]

theorem runeSlices_one_invalid (b : Nat) (h1 : ¬b ≤ 127) : runeSlices [b] = [[b]] := by
  rw [runeSlices.eq_def]
  simp [h1, runeSlices]

theorem runeSlices_two_invalid (b c2 : Nat) (h1 : ¬b ≤ 127)
    (h2 : valid2 b c2 = false) :
    runeSlices [b, c2] = [b] :: runeSlices [c2] := by
  rw [runeSlices.eq_def]
  simp [h1, h2]

theorem runeSlices_three_invalid (b c2 c3 : Nat) (h1 : ¬b ≤ 127)
    (h2 : valid2 b c2 = false) (h3 : valid3 b c2 c3 = false) :
    runeSlices [b, c2, c3] = [b] :: runeSlices [c2, c3] := by
  rw [runeSlices.eq_def]
  simp [h1, h2, h3]

theorem runeSlices_four_invalid (b c2 c3 c4 : Nat) (rest : List Nat) (h1 : ¬b ≤ 127)
    (h2 : valid2 b c2 = false) (h3 : valid3 b c2 c3 = false)
    (h4 : valid4 b c2 c3 c4 = false) :
    runeSlices (b :: c2 :: c3 :: c4 :: rest) = [b] :: runeSlices (c2 :: c3 :: c4 :: rest) := by
  rw [runeSlices.eq_def]
  simp [h1, h2, h3, h4]

/-- Appending a comma (not a continuation byte) to a byte string appends
exactly one comma rune to its rune decomposition. -/
theorem runeSlices_append_comma (a : List Nat) :
    runeSlices (a ++ [44]) = runeSlices a ++ [[44]] := by
  induction a using runeSlices.induct with
  | case1 => decide
  | case2 b rest h ih =>
    rw [List.cons_append, runeSlices_ascii b _ h, runeSlices_ascii b rest h, ih]
    simp
  | case3 b h1 ih =>
    have h2 : valid2 b 44 = false := by simp [valid2, contB]
    have e1 : ([b] ++ [44] : List Nat) = b :: 44 :: [] := by simp
    rw [e1, runeSlices_two_invalid b 44 h1 h2, runeSlices_one_invalid b h1,
      runeSlices_ascii 44 [] (by omega), runeSlices_nil]
    simp
  | case4 b h1 c2 rest h2 ih =>
    rw [List.cons_append, List.cons_append, runeSlices_two b c2 _ h2,
      runeSlices_two b c2 rest h2, ih]
    simp
  | case5 b h1 c2 h2 ih =>
    have h2f : valid2 b c2 = false := by simp [h2]
    have h3 : valid3 b c2 44 = false := by simp [valid3, contB]
    have e1 : ([b, c2] ++ [44] : List Nat) = b :: c2 :: 44 :: [] := by simp
    rw [e1, runeSlices_three_invalid b c2 44 h1 h2f h3]
    have e2 : (c2 :: 44 :: [] : List Nat) = [c2] ++ [44] := by simp
    rw [e2, ih, runeSlices_two_invalid b c2 h1 h2f]
    simp
  | case6 b h1 c2 h2 c3 rest h3 ih =>
    have h2f : valid2 b c2 = false := by simp [h2]
    rw [List.cons_append, List.cons_append, List.cons_append,
      runeSlices_three b c2 c3 _ h2f h3, runeSlices_three b c2 c3 rest h2f h3, ih]
    simp
  | case7 b h1 c2 h2 c3 h3 ih =>
    have h2f : valid2 b c2 = false := by simp [h2]
    have h3f : valid3 b c2 c3 = false := by simp [h3]
    have h4 : valid4 b c2 c3 44 = false := by simp [valid4, contB]
    have e1 : ([b, c2, c3] ++ [44] : List Nat) = b :: c2 :: c3 :: 44 :: [] := by simp
    rw [e1, runeSlices_four_invalid b c2 c3 44 [] h1 h2f h3f h4]
    have e2 : (c2 :: c3 :: 44 :: [] : List Nat) = [c2, c3] ++ [44] := by simp
    rw [e2, ih, runeSlices_three_invalid b c2 c3 h1 h2f h3f]
    simp
  | case8 b h1 c2 h2 c3 h3 c4 rest h4 ih =>
    have h2f : valid2 b c2 = false := by simp [h2]
    have h3f : valid3 b c2 c3 = false := by simp [h3]
    rw [List.cons_append, List.cons_append, List.cons_append, List.cons_append,
      runeSlices_four b c2 c3 c4 _ h2f h3f h4,
      runeSlices_four b c2 c3 c4 rest h2f h3f h4, ih]
    simp
  | case9 b h1 c2 h2 c3 h3 c4 rest h4 ih =>
    have h2f : valid2 b c2 = false := by simp [h2]
    have h3f : valid3 b c2 c3 = false := by simp [h3]
    have h4f : valid4 b c2 c3 c4 = false := by simp [h4]
    rw [List.cons_append, List.cons_append, List.cons_append, List.cons_append,
      runeSlices_four_invalid b c2 c3 c4 _ h1 h2f h3f h4f,
      runeSlices_four_invalid b c2 c3 c4 rest h1 h2f h3f h4f]
    rw [show c2 :: c3 :: c4 :: (rest ++ [44]) = (c2 :: c3 :: c4 :: rest) ++ [44] by simp, ih]
    simp

/-- The tokenizing loop threads its state left to right, so it composes
over concatenation of the rune sequence. -/
theorem tokenizeGo_append (a b : List (List Nat)) (st : TokState) :
    tokenizeGo (a ++ b) st = tokenizeGo b (tokenizeGo a st) := by
  induction a generalizing st with
  | nil => rfl
  | cons c cs ih =>
    rw [List.cons_append]
    nth_rewrite 3 [tokenizeGo.eq_def]
    nth_rewrite 1 [tokenizeGo.eq_def]
    dsimp only
    split_ifs <;> exact ih _

/-- One comma rune stepped through the tokenizing loop: outside quotes it
flushes the current token, inside quotes it is written and both flags are
left untouched. -/
theorem tokenizeGo_comma_step (st : TokState) :
    tokenizeGo [[44]] st =
      (if st.insideQuotes then ⟨st.tokens, st.cur ++ [44], st.insideQuotes, st.escaped⟩
       else ⟨st.tokens ++ [st.cur], [], st.insideQuotes, st.escaped⟩) := by
  rw [tokenizeGo.eq_def]
  by_cases h : st.insideQuotes <;> simp [h, tokenizeGo]

theorem trimPrefixB_append_comma (s : List Nat) :
    trimPrefixB 123 (s ++ [44]) = trimPrefixB 123 s ++ [44] := by
  cases s with
  | nil => simp [trimPrefixB]
  | cons b t =>
    by_cases h : b = 123 <;> simp [trimPrefixB, h]

theorem trimSuffixB_append_comma (s : List Nat) :
    trimSuffixB 125 (s ++ [44]) = s ++ [44] := by
  simp [trimSuffixB, List.reverse_append]

theorem trimSuffixB_of_getLast_ne (s : List Nat) (h : s.getLast? ≠ some 125) :
    trimSuffixB 125 s = s := by
  unfold trimSuffixB
  cases hr : s.reverse with
  | nil => simp at hr; exact hr.symm
  | cons b rest =>
    have hb : s.getLast? = some b := by
      rw [← List.head?_reverse, hr]
      rfl
    have : b ≠ 125 := by
      intro he
      exact h (he ▸ hb)
    simp [this]

/-- **C2 (counterexample).** Two clauses of the claim fail on the code.
A trailing comma is not always tolerated: `ParseMatchers ","` flushes an
empty token and fails, while `ParseMatchers ""` succeeds with the empty
list.  And the escape flag does not reset on a comma: in `x=\,"y,z"` the
backslash's escape flag survives the flushing comma, so the following
quote does not open a quoted span and the later comma splits, giving the
three tokens `x=\`, `"y`, `z"` instead of the claim's two. -/
theorem parseMatchers_c2_cex :
    ParseMatchers [44] = .error .badMatcherFormat ∧
    ParseMatchers [] = .ok [] ∧
    goTokens (strB "x=\\,\"y,z\"") = [strB "x=\\", strB "\"y", strB "z\""] := by
  refine ⟨by decide, by decide, by decide⟩

/-- **C2 (amended).** `ParseMatchers` strips one optional leading `{` and
one optional trailing `}` independently; splits the remainder on commas
outside double-quoted spans, scanning rune by rune with a quoted-region
flag and a one-shot escape flag — a backslash toggles the escape flag, a
quote seen with the flag set merely clears it, a quote seen with the flag
clear toggles the quoted region, a comma leaves the flag unchanged (it
does not reset it), and any other rune clears it; a comma outside quotes
flushes the current token; the final token is kept only when non-empty
after trimming; each token goes to `ParseMatcher` in order and the first
failure aborts with that token's error.  `ParseMatchers ""` and
`ParseMatchers "{}"` yield the empty matcher list, and appending a
trailing comma preserves the result provided the brace-stripped input does
not end in `}`, tokenization ends outside quotes, and the final token is
non-empty with no surrounding white space. -/
theorem parseMatchers_tokenization :
    (ParseMatchers [] = .ok []) ∧
    (ParseMatchers (strB "{}") = .ok []) ∧
    (∀ s, stripBraces (123 :: s) = trimSuffixB 125 s) ∧
    (∀ s, s.getLast? ≠ some 125 → trimSuffixB 125 s = s) ∧
    (∀ s, stripBraces (s ++ [125]) = trimPrefixB 123 s) ∧
    (∀ cs st, tokenizeGo ([92] :: cs) st =
      tokenizeGo cs ⟨st.tokens, st.cur ++ [92], st.insideQuotes, !st.escaped⟩) ∧
    (∀ cs st, st.escaped = false → tokenizeGo ([34] :: cs) st =
      tokenizeGo cs ⟨st.tokens, st.cur ++ [34], !st.insideQuotes, false⟩) ∧
    (∀ cs st, st.escaped = true → tokenizeGo ([34] :: cs) st =
      tokenizeGo cs ⟨st.tokens, st.cur ++ [34], st.insideQuotes, false⟩) ∧
    (∀ cs st, st.insideQuotes = false → tokenizeGo ([44] :: cs) st =
      tokenizeGo cs ⟨st.tokens ++ [st.cur], [], st.insideQuotes, st.escaped⟩) ∧
    (∀ cs st, st.insideQuotes = true → tokenizeGo ([44] :: cs) st =
      tokenizeGo cs ⟨st.tokens, st.cur ++ [44], st.insideQuotes, st.escaped⟩) ∧
    (∀ c cs st, c ≠ [44] → c ≠ [34] → c ≠ [92] → tokenizeGo (c :: cs) st =
      tokenizeGo cs ⟨st.tokens, st.cur ++ emitChunk c, st.insideQuotes, false⟩) ∧
    (∀ toks ms, parseTokens toks = .ok ms →
      toks.map ParseMatcher = ms.map Except.ok) ∧
    (∀ pre t post e, (∀ u ∈ pre, ∃ m, ParseMatcher u = .ok m) →
      ParseMatcher t = .error e → parseTokens (pre ++ t :: post) = .error e) ∧
    (∀ s, (trimPrefixB 123 s).getLast? ≠ some 125 →
      (tokenizeGo (runeSlices (trimPrefixB 123 s)) ⟨[], [], false, false⟩).insideQuotes
        = false →
      trimSpaceUni (tokenizeGo (runeSlices (trimPrefixB 123 s)) ⟨[], [], false, false⟩).cur
        = (tokenizeGo (runeSlices (trimPrefixB 123 s)) ⟨[], [], false, false⟩).cur →
      (tokenizeGo (runeSlices (trimPrefixB 123 s)) ⟨[], [], false, false⟩).cur ≠ [] →
      ParseMatchers (s ++ [44]) = ParseMatchers s) := by
  refine ⟨by decide, by decide, ?_, trimSuffixB_of_getLast_ne, ?_, ?_, ?_, ?_, ?_, ?_,
    ?_, ?_, ?_, ?_⟩
  · intro s
    simp [stripBraces, trimPrefixB]
  · intro s
    unfold stripBraces
    have h1 : trimPrefixB 123 (s ++ [125]) = trimPrefixB 123 s ++ [125] := by
      cases s with
      | nil => simp [trimPrefixB]
      | cons b t => by_cases h : b = 123 <;> simp [trimPrefixB, h]
    rw [h1]
    simp [trimSuffixB, List.reverse_append]
  · intro cs st
    rw [tokenizeGo.eq_def]
    simp [tokenizeGo]
  · intro cs st h
    rw [tokenizeGo.eq_def]
    simp [h]
  · intro cs st h
    rw [tokenizeGo.eq_def]
    simp [h]
  · intro cs st h
    rw [tokenizeGo.eq_def]
    simp [h]
  · intro cs st h
    rw [tokenizeGo.eq_def]
    simp [h]
  · intro c cs st h44 h34 h92
    rw [tokenizeGo.eq_def]
    simp [h44, h34, h92]
  · intro toks
    induction toks with
    | nil =>
      intro ms h
      simp [parseTokens] at h
      simp [← h]
    | cons t ts ih =>
      intro ms h
      unfold parseTokens at h
      cases hp : ParseMatcher t with
      | error e => rw [hp] at h; exact absurd h (by simp)
      | ok m =>
        rw [hp] at h
        cases hts : parseTokens ts with
        | error e => rw [hts] at h; exact absurd h (by simp)
        | ok ms' =>
          rw [hts] at h
          simp only [Except.ok.injEq] at h
          subst h
          simp [hp, ih ms' hts]
  · intro pre t post e hpre ht
    induction pre with
    | nil => simp [parseTokens, ht]
    | cons u us ih =>
      obtain ⟨m, hm⟩ := hpre u (by simp)
      have := ih (fun x hx => hpre x (by simp [hx]))
      rw [List.cons_append]
      unfold parseTokens
      rw [hm, this]
  · intro s h125 hiq htrim hne
    have hstrip : stripBraces s = trimPrefixB 123 s :=
      trimSuffixB_of_getLast_ne _ h125
    have hstrip2 : stripBraces (s ++ [44]) = trimPrefixB 123 s ++ [44] := by
      unfold stripBraces
      rw [trimPrefixB_append_comma, trimSuffixB_append_comma]
    unfold ParseMatchers goTokens
    rw [hstrip, hstrip2, runeSlices_append_comma, tokenizeGo_append,
      tokenizeGo_comma_step]
    have hempty : trimSpaceUni ([] : List Nat) = [] := by decide
    simp [hiq, hempty, htrim, hne]

/-- Witness for `parseMatchers_tokenization`: a concrete tolerated trailing
comma and a concrete unescaped-quote step. -/
theorem parseMatchers_tokenization_witness :
    ParseMatchers (strB "foo=bar" ++ [44]) = ParseMatchers (strB "foo=bar") ∧
    tokenizeGo [[34]] ⟨[], [], false, false⟩ =
      tokenizeGo [] ⟨[], [] ++ [34], !false, false⟩ :=
  ⟨parseMatchers_tokenization.2.2.2.2.2.2.2.2.2.2.2.2.2 (strB "foo=bar")
     (by decide) (by decide) (by decide) (by decide),
   parseMatchers_tokenization.2.2.2.2.2.2.1 [] ⟨[], [], false, false⟩ rfl⟩

/-! ## Claim C8 — render / re-parse round trip -/

/-- Rewrite kit for `utf8Valid`, one lemma per rune shape, plus the
failing shapes. -/
theorem utf8Valid_ascii (b : Nat) (rest : List Nat) (h : b ≤ 127) :
    utf8Valid (b :: rest) = utf8Valid rest := by
  rw [utf8Valid.eq_def]
  simp [h]

theorem utf8Valid_two (b c2 : Nat) (rest : List Nat) (h2 : valid2 b c2 = true) :
    utf8Valid (b :: c2 :: rest) = utf8Valid rest := by
  have h1 : ¬b ≤ 127 := by simp [valid2, contB] at h2; omega
  rw [utf8Valid.eq_def]
  simp [h1, h2]

theorem utf8Valid_three (b c2 c3 : Nat) (rest : List Nat)
    (h3 : valid3 b c2 c3 = true) :
    utf8Valid (b :: c2 :: c3 :: rest) = utf8Valid rest := by
  have h1 : ¬b ≤ 127 := by simp [valid3, contB] at h3; omega
  have h2 : valid2 b c2 = false := by
    simp [valid3, contB] at h3
    simp [valid2, contB]
    omega
  rw [utf8Valid.eq_def]
  simp [h1, h2, h3]

theorem utf8Valid_four (b c2 c3 c4 : Nat) (rest : List Nat)
    (h4 : valid4 b c2 c3 c4 = true) :
    utf8Valid (b :: c2 :: c3 :: c4 :: rest) = utf8Valid rest := by
  have h1 : ¬b ≤ 127 := by simp [valid4, contB] at h4; omega
  have h2 : valid2 b c2 = false := by
    simp [valid4, contB] at h4
    simp [valid2, contB]
    omega
  have h3 : valid3 b c2 c3 = false := by
    simp [valid4, contB] at h4
    simp [valid3, contB]
    omega
  rw [utf8Valid.eq_def]
  simp [h1, h2, h3, h4]

theorem utf8Valid_one_invalid (b : Nat) (h1 : ¬b ≤ 127) :
    utf8Valid [b] = false := by
  rw [utf8Valid.eq_def]
  simp [h1]

theorem utf8Valid_two_invalid (b c2 : Nat) (h1 : ¬b ≤ 127)
    (h2 : valid2 b c2 = false) : utf8Valid [b, c2] = false := by
  rw [utf8Valid.eq_def]
  simp [h1, h2]

theorem utf8Valid_three_invalid (b c2 c3 : Nat) (h1 : ¬b ≤ 127)
    (h2 : valid2 b c2 = false) (h3 : valid3 b c2 c3 = false) :
    utf8Valid [b, c2, c3] = false := by
  rw [utf8Valid.eq_def]
  simp [h1, h2, h3]

theorem utf8Valid_four_invalid (b c2 c3 c4 : Nat) (rest : List Nat) (h1 : ¬b ≤ 127)
    (h2 : valid2 b c2 = false) (h3 : valid3 b c2 c3 = false)
    (h4 : valid4 b c2 c3 c4 = false) :
    utf8Valid (b :: c2 :: c3 :: c4 :: rest) = false := by
  rw [utf8Valid.eq_def]
  simp [h1, h2, h3, h4]

/-- Concatenating valid UTF-8 strings yields a valid UTF-8 string. -/
theorem utf8Valid_append (a bb : List Nat) (ha : utf8Valid a = true)
    (hb : utf8Valid bb = true) : utf8Valid (a ++ bb) = true := by
  induction a using utf8Valid.induct with
  | case1 => simpa using hb
  | case2 b rest h ih =>
    rw [utf8Valid_ascii b rest h] at ha
    rw [List.cons_append, utf8Valid_ascii b _ h]
    exact ih ha
  | case3 b h1 =>
    rw [utf8Valid_one_invalid b h1] at ha
    exact absurd ha (by simp)
  | case4 b h1 c2 rest h2 ih =>
    rw [utf8Valid_two b c2 rest h2] at ha
    rw [List.cons_append, List.cons_append, utf8Valid_two b c2 _ h2]
    exact ih ha
  | case5 b h1 c2 h2 =>
    have h2f : valid2 b c2 = false := by simp [h2]
    rw [utf8Valid_two_invalid b c2 h1 h2f] at ha
    exact absurd ha (by simp)
  | case6 b h1 c2 h2 c3 rest h3 ih =>
    rw [utf8Valid_three b c2 c3 rest h3] at ha
    rw [List.cons_append, List.cons_append, List.cons_append,
      utf8Valid_three b c2 c3 _ h3]
    exact ih ha
  | case7 b h1 c2 h2 c3 h3 =>
    have h2f : valid2 b c2 = false := by simp [h2]
    have h3f : valid3 b c2 c3 = false := by simp [h3]
    rw [utf8Valid_three_invalid b c2 c3 h1 h2f h3f] at ha
    exact absurd ha (by simp)
  | case8 b h1 c2 h2 c3 h3 c4 rest h4 ih =>
    rw [utf8Valid_four b c2 c3 c4 rest h4] at ha
    rw [List.cons_append, List.cons_append, List.cons_append, List.cons_append,
      utf8Valid_four b c2 c3 c4 _ h4]
    exact ih ha
  | case9 b h1 c2 h2 c3 h3 c4 rest h4 =>
    have h2f : valid2 b c2 = false := by simp [h2]
    have h3f : valid3 b c2 c3 = false := by simp [h3]
    have h4f : valid4 b c2 c3 c4 = false := by simp [h4]
    rw [utf8Valid_four_invalid b c2 c3 c4 rest h1 h2f h3f h4f] at ha
    exact absurd ha (by simp)

/-- Rewrite kit for `openMetricsEscape`. -/
theorem openMetricsEscape_nil : openMetricsEscape [] = [] := rfl

theorem openMetricsEscape_backslash (rest : List Nat) :
    openMetricsEscape (92 :: rest) = 92 :: 92 :: openMetricsEscape rest := by
  rw [openMetricsEscape.eq_def]

theorem openMetricsEscape_newline (rest : List Nat) :
    openMetricsEscape (10 :: rest) = 92 :: 110 :: openMetricsEscape rest := by
  rw [openMetricsEscape.eq_def]

theorem openMetricsEscape_quote (rest : List Nat) :
    openMetricsEscape (34 :: rest) = 92 :: 34 :: openMetricsEscape rest := by
  rw [openMetricsEscape.eq_def]

theorem openMetricsEscape_other (b : Nat) (rest : List Nat)
    (h92 : b ≠ 92) (h10 : b ≠ 10) (h34 : b ≠ 34) :
    openMetricsEscape (b :: rest) = b :: openMetricsEscape rest := by
  rw [openMetricsEscape.eq_def]
  split <;> simp_all

/-- Rewrite kit for `unescapeGo`, one lemma per consumed unit. -/
theorem unescapeGo_nil_eq : unescapeGo [] = .ok [] := rfl

theorem unescapeGo_esc_n (rest : List Nat) :
    unescapeGo (92 :: 110 :: rest) = (fun l => 10 :: l) <$> unescapeGo rest := by
  rw [unescapeGo.eq_def]
  simp

theorem unescapeGo_esc_quote (rest : List Nat) :
    unescapeGo (92 :: 34 :: rest) = (fun l => 34 :: l) <$> unescapeGo rest := by
  rw [unescapeGo.eq_def]
  simp

theorem unescapeGo_esc_bs (rest : List Nat) :
    unescapeGo (92 :: 92 :: rest) = (fun l => 92 :: l) <$> unescapeGo rest := by
  rw [unescapeGo.eq_def]
  simp

theorem unescapeGo_esc_spurious (b : Nat) (rest : List Nat) (h110 : b ≠ 110)
    (h34 : b ≠ 34) (h92 : b ≠ 92) (hle : b ≤ 127) :
    unescapeGo (92 :: b :: rest) = (fun l => 92 :: b :: l) <$> unescapeGo rest := by
  rw [unescapeGo.eq_def]
  simp [h110, h34, h92, hle]

theorem unescapeGo_esc_two (b c2 : Nat) (rest : List Nat)
    (h2 : valid2 b c2 = true) :
    unescapeGo (92 :: b :: c2 :: rest) =
      (fun l => 92 :: b :: c2 :: l) <$> unescapeGo rest := by
  have hb : 194 ≤ b ∧ b ≤ 223 := by simp [valid2, contB] at h2; omega
  rw [unescapeGo.eq_def]
  simp [h2, show ¬b = 110 by omega, show ¬b = 34 by omega,
    show ¬b = 92 by omega, show ¬b ≤ 127 by omega]

theorem unescapeGo_esc_three (b c2 c3 : Nat) (rest : List Nat)
    (h3 : valid3 b c2 c3 = true) :
    unescapeGo (92 :: b :: c2 :: c3 :: rest) =
      (fun l => 92 :: b :: c2 :: c3 :: l) <$> unescapeGo rest := by
  have hb : 224 ≤ b ∧ b ≤ 239 := by simp [valid3, contB] at h3; omega
  have h2 : valid2 b c2 = false := by simp [valid2, contB]; omega
  rw [unescapeGo.eq_def]
  simp [h2, h3, show ¬b = 110 by omega, show ¬b = 34 by omega,
    show ¬b = 92 by omega, show ¬b ≤ 127 by omega]

theorem unescapeGo_esc_four (b c2 c3 c4 : Nat) (rest : List Nat)
    (h4 : valid4 b c2 c3 c4 = true) :
    unescapeGo (92 :: b :: c2 :: c3 :: c4 :: rest) =
      (fun l => 92 :: b :: c2 :: c3 :: c4 :: l) <$> unescapeGo rest := by
  have hb : 240 ≤ b ∧ b ≤ 244 := by simp [valid4, contB] at h4; omega
  have h2 : valid2 b c2 = false := by simp [valid2, contB]; omega
  have h3 : valid3 b c2 c3 = false := by simp [valid3, contB]; omega
  rw [unescapeGo.eq_def]
  simp [h2, h3, h4, show ¬b = 110 by omega, show ¬b = 34 by omega,
    show ¬b = 92 by omega, show ¬b ≤ 127 by omega]

theorem unescapeGo_quote_nil : unescapeGo [34] = .ok [] := by decide

theorem unescapeGo_quote_cons (c : Nat) (rest : List Nat) :
    unescapeGo (34 :: c :: rest) = .error .unescapedQuote := by
  rw [unescapeGo.eq_def]
  simp

theorem unescapeGo_ascii_plain (b : Nat) (rest : List Nat) (h92 : b ≠ 92)
    (h34 : b ≠ 34) (hle : b ≤ 127) :
    unescapeGo (b :: rest) = (fun l => b :: l) <$> unescapeGo rest := by
  rw [unescapeGo.eq_def]
  simp [h92, h34, hle]

theorem unescapeGo_two' (b c2 : Nat) (rest : List Nat) (h2 : valid2 b c2 = true) :
    unescapeGo (b :: c2 :: rest) = (fun l => b :: c2 :: l) <$> unescapeGo rest := by
  have hb : 194 ≤ b ∧ b ≤ 223 := by simp [valid2, contB] at h2; omega
  rw [unescapeGo.eq_def]
  simp [h2, show ¬b = 92 by omega, show ¬b = 34 by omega, show ¬b ≤ 127 by omega]

theorem unescapeGo_three' (b c2 c3 : Nat) (rest : List Nat)
    (h3 : valid3 b c2 c3 = true) :
    unescapeGo (b :: c2 :: c3 :: rest) =
      (fun l => b :: c2 :: c3 :: l) <$> unescapeGo rest := by
  have hb : 224 ≤ b ∧ b ≤ 239 := by simp [valid3, contB] at h3; omega
  have h2 : valid2 b c2 = false := by simp [valid2, contB]; omega
  rw [unescapeGo.eq_def]
  simp [h2, h3, show ¬b = 92 by omega, show ¬b = 34 by omega, show ¬b ≤ 127 by omega]

theorem unescapeGo_four' (b c2 c3 c4 : Nat) (rest : List Nat)
    (h4 : valid4 b c2 c3 c4 = true) :
    unescapeGo (b :: c2 :: c3 :: c4 :: rest) =
      (fun l => b :: c2 :: c3 :: c4 :: l) <$> unescapeGo rest := by
  have hb : 240 ≤ b ∧ b ≤ 244 := by simp [valid4, contB] at h4; omega
  have h2 : valid2 b c2 = false := by simp [valid2, contB]; omega
  have h3 : valid3 b c2 c3 = false := by simp [valid3, contB]; omega
  rw [unescapeGo.eq_def]
  simp [h2, h3, h4, show ¬b = 92 by omega, show ¬b = 34 by omega,
    show ¬b ≤ 127 by omega]

/-- `openMetricsEscape` maps valid UTF-8 to valid UTF-8: the escape bytes
`\\`, `\n`, `\"` are ASCII pairs and multi-byte runes pass through. -/
theorem openMetricsEscape_valid (v : List Nat) (hv : utf8Valid v = true) :
    utf8Valid (openMetricsEscape v) = true := by
  induction v using utf8Valid.induct with
  | case1 => simpa using hv
  | case2 b rest h ih =>
    rw [utf8Valid_ascii b rest h] at hv
    by_cases h92 : b = 92
    · subst h92
      rw [openMetricsEscape_backslash, utf8Valid_ascii 92 _ (by omega),
        utf8Valid_ascii 92 _ (by omega)]
      exact ih hv
    · by_cases h10 : b = 10
      · subst h10
        rw [openMetricsEscape_newline, utf8Valid_ascii 92 _ (by omega),
          utf8Valid_ascii 110 _ (by omega)]
        exact ih hv
      · by_cases h34 : b = 34
        · subst h34
          rw [openMetricsEscape_quote, utf8Valid_ascii 92 _ (by omega),
            utf8Valid_ascii 34 _ (by omega)]
          exact ih hv
        · rw [openMetricsEscape_other b rest h92 h10 h34, utf8Valid_ascii b _ h]
          exact ih hv
  | case3 b h1 =>
    rw [utf8Valid_one_invalid b h1] at hv
    exact absurd hv (by simp)
  | case4 b h1 c2 rest h2 ih =>
    rw [utf8Valid_two b c2 rest h2] at hv
    have hb : 194 ≤ b ∧ b ≤ 223 := by simp [valid2, contB] at h2; omega
    have hc : 128 ≤ c2 ∧ c2 ≤ 191 := by simp [valid2, contB] at h2; omega
    rw [openMetricsEscape_other b _ (by omega) (by omega) (by omega),
      openMetricsEscape_other c2 _ (by omega) (by omega) (by omega),
      utf8Valid_two b c2 _ h2]
    exact ih hv
  | case5 b h1 c2 h2 =>
    have h2f : valid2 b c2 = false := by simp [h2]
    rw [utf8Valid_two_invalid b c2 h1 h2f] at hv
    exact absurd hv (by simp)
  | case6 b h1 c2 h2 c3 rest h3 ih =>
    rw [utf8Valid_three b c2 c3 rest h3] at hv
    have hb : 224 ≤ b ∧ b ≤ 239 := by simp [valid3, contB] at h3; omega
    have hc2 : 128 ≤ c2 ∧ c2 ≤ 191 := by simp [valid3, contB] at h3; omega
    have hc3 : 128 ≤ c3 ∧ c3 ≤ 191 := by simp [valid3, contB] at h3; omega
    rw [openMetricsEscape_other b _ (by omega) (by omega) (by omega),
      openMetricsEscape_other c2 _ (by omega) (by omega) (by omega),
      openMetricsEscape_other c3 _ (by omega) (by omega) (by omega),
      utf8Valid_three b c2 c3 _ h3]
    exact ih hv
  | case7 b h1 c2 h2 c3 h3 =>
    have h2f : valid2 b c2 = false := by simp [h2]
    have h3f : valid3 b c2 c3 = false := by simp [h3]
    rw [utf8Valid_three_invalid b c2 c3 h1 h2f h3f] at hv
    exact absurd hv (by simp)
  | case8 b h1 c2 h2 c3 h3 c4 rest h4 ih =>
    rw [utf8Valid_four b c2 c3 c4 rest h4] at hv
    have hb : 240 ≤ b ∧ b ≤ 244 := by simp [valid4, contB] at h4; omega
    have hc2 : 128 ≤ c2 ∧ c2 ≤ 191 := by simp [valid4, contB] at h4; omega
    have hc3 : 128 ≤ c3 ∧ c3 ≤ 191 := by simp [valid4, contB] at h4; omega
    have hc4 : 128 ≤ c4 ∧ c4 ≤ 191 := by simp [valid4, contB] at h4; omega
    rw [openMetricsEscape_other b _ (by omega) (by omega) (by omega),
      openMetricsEscape_other c2 _ (by omega) (by omega) (by omega),
      openMetricsEscape_other c3 _ (by omega) (by omega) (by omega),
      openMetricsEscape_other c4 _ (by omega) (by omega) (by omega),
      utf8Valid_four b c2 c3 c4 _ h4]
    exact ih hv
  | case9 b h1 c2 h2 c3 h3 c4 rest h4 =>
    have h2f : valid2 b c2 = false := by simp [h2]
    have h3f : valid3 b c2 c3 = false := by simp [h3]
    have h4f : valid4 b c2 c3 c4 = false := by simp [h4]
    rw [utf8Valid_four_invalid b c2 c3 c4 rest h1 h2f h3f h4f] at hv
    exact absurd hv (by simp)

/-- Unescaping the escape of a valid UTF-8 value, with the closing quote
appended, recovers the value: the closing quote is the last byte, so it is
dropped. -/
theorem unescape_escape (v : List Nat) (hv : utf8Valid v = true) :
    unescapeGo (openMetricsEscape v ++ [34]) = .ok v := by
  induction v using utf8Valid.induct with
  | case1 => decide
  | case2 b rest h ih =>
    rw [utf8Valid_ascii b rest h] at hv
    by_cases h92 : b = 92
    · subst h92
      rw [openMetricsEscape_backslash, List.cons_append, List.cons_append,
        unescapeGo_esc_bs, ih hv]
      rfl
    · by_cases h10 : b = 10
      · subst h10
        rw [openMetricsEscape_newline, List.cons_append, List.cons_append,
          unescapeGo_esc_n, ih hv]
        rfl
      · by_cases h34 : b = 34
        · subst h34
          rw [openMetricsEscape_quote, List.cons_append, List.cons_append,
            unescapeGo_esc_quote, ih hv]
          rfl
        · rw [openMetricsEscape_other b rest h92 h10 h34, List.cons_append,
            unescapeGo_ascii_plain b _ h92 h34 h, ih hv]
          rfl
  | case3 b h1 =>
    rw [utf8Valid_one_invalid b h1] at hv
    exact absurd hv (by simp)
  | case4 b h1 c2 rest h2 ih =>
    rw [utf8Valid_two b c2 rest h2] at hv
    have hb : 194 ≤ b ∧ b ≤ 223 := by simp [valid2, contB] at h2; omega
    have hc : 128 ≤ c2 ∧ c2 ≤ 191 := by simp [valid2, contB] at h2; omega
    rw [openMetricsEscape_other b _ (by omega) (by omega) (by omega),
      openMetricsEscape_other c2 _ (by omega) (by omega) (by omega),
      List.cons_append, List.cons_append, unescapeGo_two' b c2 _ h2, ih hv]
    rfl
  | case5 b h1 c2 h2 =>
    have h2f : valid2 b c2 = false := by simp [h2]
    rw [utf8Valid_two_invalid b c2 h1 h2f] at hv
    exact absurd hv (by simp)
  | case6 b h1 c2 h2 c3 rest h3 ih =>
    rw [utf8Valid_three b c2 c3 rest h3] at hv
    have hb : 224 ≤ b ∧ b ≤ 239 := by simp [valid3, contB] at h3; omega
    have hc2 : 128 ≤ c2 ∧ c2 ≤ 191 := by simp [valid3, contB] at h3; omega
    have hc3 : 128 ≤ c3 ∧ c3 ≤ 191 := by simp [valid3, contB] at h3; omega
    rw [openMetricsEscape_other b _ (by omega) (by omega) (by omega),
      openMetricsEscape_other c2 _ (by omega) (by omega) (by omega),
      openMetricsEscape_other c3 _ (by omega) (by omega) (by omega),
      List.cons_append, List.cons_append, List.cons_append,
      unescapeGo_three' b c2 c3 _ h3, ih hv]
    rfl
  | case7 b h1 c2 h2 c3 h3 =>
    have h2f : valid2 b c2 = false := by simp [h2]
    have h3f : valid3 b c2 c3 = false := by simp [h3]
    rw [utf8Valid_three_invalid b c2 c3 h1 h2f h3f] at hv
    exact absurd hv (by simp)
  | case8 b h1 c2 h2 c3 h3 c4 rest h4 ih =>
    rw [utf8Valid_four b c2 c3 c4 rest h4] at hv
    have hb : 240 ≤ b ∧ b ≤ 244 := by simp [valid4, contB] at h4; omega
    have hc2 : 128 ≤ c2 ∧ c2 ≤ 191 := by simp [valid4, contB] at h4; omega
    have hc3 : 128 ≤ c3 ∧ c3 ≤ 191 := by simp [valid4, contB] at h4; omega
    have hc4 : 128 ≤ c4 ∧ c4 ≤ 191 := by simp [valid4, contB] at h4; omega
    rw [openMetricsEscape_other b _ (by omega) (by omega) (by omega),
      openMetricsEscape_other c2 _ (by omega) (by omega) (by omega),
      openMetricsEscape_other c3 _ (by omega) (by omega) (by omega),
      openMetricsEscape_other c4 _ (by omega) (by omega) (by omega),
      List.cons_append, List.cons_append, List.cons_append, List.cons_append,
      unescapeGo_four' b c2 c3 c4 _ h4, ih hv]
    rfl
  | case9 b h1 c2 h2 c3 h3 c4 rest h4 =>
    have h2f : valid2 b c2 = false := by simp [h2]
    have h3f : valid3 b c2 c3 = false := by simp [h3]
    have h4f : valid4 b c2 c3 c4 = false := by simp [h4]
    rw [utf8Valid_four_invalid b c2 c3 c4 rest h1 h2f h3f h4f] at hv
    exact absurd hv (by simp)

/-- Inversion of `<$>` on `Except` producing `ok`. -/
theorem except_map_ok (f : List Nat → List Nat) (x : Except ParseErr (List Nat))
    (out : List Nat) (h : f <$> x = .ok out) : ∃ l, x = .ok l ∧ out = f l := by
  cases x with
  | error e => exact absurd h (by simp [Except.map])
  | ok l =>
    refine ⟨l, rfl, ?_⟩
    have h' : Except.ok (ε := ParseErr) (f l) = .ok out := h
    simpa using h'.symm

/-- A successful `unescapeGo` on valid UTF-8 input yields valid UTF-8
output (the U+FFFD branches only fire on invalid input). -/
theorem unescapeGo_ok_valid (raw : List Nat) :
    ∀ out, utf8Valid raw = true → unescapeGo raw = .ok out →
      utf8Valid out = true := by
  induction raw using unescapeGo.induct with
  | case1 =>
    intro out hv h
    rw [unescapeGo_nil_eq] at h
    simp at h
    subst h
    decide
  | case2 =>
    intro out hv h
    have he : unescapeGo [92] = .ok [92] := by decide
    rw [he] at h
    simp at h
    subst h
    decide
  | case3 rest ih =>
    intro out hv h
    rw [unescapeGo_esc_n] at h
    obtain ⟨l, hrec, hout⟩ := except_map_ok _ _ _ h
    subst hout
    rw [utf8Valid_ascii 92 _ (by omega), utf8Valid_ascii 110 _ (by omega)] at hv
    rw [utf8Valid_ascii 10 _ (by omega)]
    exact ih l hv hrec
  | case4 rest h' ih =>
    intro out hv h
    rw [unescapeGo_esc_quote] at h
    obtain ⟨l, hrec, hout⟩ := except_map_ok _ _ _ h
    subst hout
    rw [utf8Valid_ascii 92 _ (by omega), utf8Valid_ascii 34 _ (by omega)] at hv
    rw [utf8Valid_ascii 34 _ (by omega)]
    exact ih l hv hrec
  | case5 rest h' h'' ih =>
    intro out hv h
    rw [unescapeGo_esc_bs] at h
    obtain ⟨l, hrec, hout⟩ := except_map_ok _ _ _ h
    subst hout
    rw [utf8Valid_ascii 92 _ (by omega), utf8Valid_ascii 92 _ (by omega)] at hv
    rw [utf8Valid_ascii 92 _ (by omega)]
    exact ih l hv hrec
  | case6 b rest h110 h34 h92 hle ih =>
    intro out hv h
    rw [unescapeGo_esc_spurious b rest h110 h34 h92 hle] at h
    obtain ⟨l, hrec, hout⟩ := except_map_ok _ _ _ h
    subst hout
    rw [utf8Valid_ascii 92 _ (by omega), utf8Valid_ascii b _ hle] at hv
    rw [utf8Valid_ascii 92 _ (by omega), utf8Valid_ascii b _ hle]
    exact ih l hv hrec
  | case7 b h110 h34 h92 hnle =>
    intro out hv h
    rw [utf8Valid_ascii 92 _ (by omega), utf8Valid_one_invalid b hnle] at hv
    exact absurd hv (by simp)
  | case8 b h110 h34 h92 hnle c2 rest h2 ih =>
    intro out hv h
    rw [unescapeGo_esc_two b c2 rest h2] at h
    obtain ⟨l, hrec, hout⟩ := except_map_ok _ _ _ h
    subst hout
    rw [utf8Valid_ascii 92 _ (by omega), utf8Valid_two b c2 rest h2] at hv
    rw [utf8Valid_ascii 92 _ (by omega), utf8Valid_two b c2 _ h2]
    exact ih l hv hrec
  | case9 b h110 h34 h92 hnle c2 h2n ih =>
    intro out hv h
    have h2f : valid2 b c2 = false := by simp [h2n]
    rw [utf8Valid_ascii 92 _ (by omega),
      utf8Valid_two_invalid b c2 hnle h2f] at hv
    exact absurd hv (by simp)
  | case10 b h110 h34 h92 hnle c2 h2n c3 rest h3 ih =>
    intro out hv h
    rw [unescapeGo_esc_three b c2 c3 rest h3] at h
    obtain ⟨l, hrec, hout⟩ := except_map_ok _ _ _ h
    subst hout
    rw [utf8Valid_ascii 92 _ (by omega), utf8Valid_three b c2 c3 rest h3] at hv
    rw [utf8Valid_ascii 92 _ (by omega), utf8Valid_three b c2 c3 _ h3]
    exact ih l hv hrec
  | case11 b h110 h34 h92 hnle c2 h2n c3 h3n ih =>
    intro out hv h
    have h2f : valid2 b c2 = false := by simp [h2n]
    have h3f : valid3 b c2 c3 = false := by simp [h3n]
    rw [utf8Valid_ascii 92 _ (by omega),
      utf8Valid_three_invalid b c2 c3 hnle h2f h3f] at hv
    exact absurd hv (by simp)
  | case12 b h110 h34 h92 hnle c2 h2n c3 h3n c4 rest h4 ih =>
    intro out hv h
    rw [unescapeGo_esc_four b c2 c3 c4 rest h4] at h
    obtain ⟨l, hrec, hout⟩ := except_map_ok _ _ _ h
    subst hout
    rw [utf8Valid_ascii 92 _ (by omega), utf8Valid_four b c2 c3 c4 rest h4] at hv
    rw [utf8Valid_ascii 92 _ (by omega), utf8Valid_four b c2 c3 c4 _ h4]
    exact ih l hv hrec
  | case13 b h110 h34 h92 hnle c2 h2n c3 h3n c4 rest h4n ih =>
    intro out hv h
    have h2f : valid2 b c2 = false := by simp [h2n]
    have h3f : valid3 b c2 c3 = false := by simp [h3n]
    have h4f : valid4 b c2 c3 c4 = false := by simp [h4n]
    rw [utf8Valid_ascii 92 _ (by omega),
      utf8Valid_four_invalid b c2 c3 c4 rest hnle h2f h3f h4f] at hv
    exact absurd hv (by simp)
  | case14 h' =>
    intro out hv h
    rw [unescapeGo_quote_nil] at h
    simp at h
    subst h
    decide
  | case15 b rest h' =>
    intro out hv h
    rw [unescapeGo_quote_cons] at h
    exact absurd h (by simp)
  | case16 b rest h92 h34 hle ih =>
    intro out hv h
    rw [unescapeGo_ascii_plain b rest h92 h34 hle] at h
    obtain ⟨l, hrec, hout⟩ := except_map_ok _ _ _ h
    subst hout
    rw [utf8Valid_ascii b _ hle] at hv
    rw [utf8Valid_ascii b _ hle]
    exact ih l hv hrec
  | case17 b h92 h34 hnle =>
    intro out hv h
    rw [utf8Valid_one_invalid b hnle] at hv
    exact absurd hv (by simp)
  | case18 b h92 h34 hnle c2 rest h2 ih =>
    intro out hv h
    rw [unescapeGo_two' b c2 rest h2] at h
    obtain ⟨l, hrec, hout⟩ := except_map_ok _ _ _ h
    subst hout
    rw [utf8Valid_two b c2 rest h2] at hv
    rw [utf8Valid_two b c2 _ h2]
    exact ih l hv hrec
  | case19 b h92 h34 hnle c2 h2n ih =>
    intro out hv h
    have h2f : valid2 b c2 = false := by simp [h2n]
    rw [utf8Valid_two_invalid b c2 hnle h2f] at hv
    exact absurd hv (by simp)
  | case20 b h92 h34 hnle c2 h2n c3 rest h3 ih =>
    intro out hv h
    rw [unescapeGo_three' b c2 c3 rest h3] at h
    obtain ⟨l, hrec, hout⟩ := except_map_ok _ _ _ h
    subst hout
    rw [utf8Valid_three b c2 c3 rest h3] at hv
    rw [utf8Valid_three b c2 c3 _ h3]
    exact ih l hv hrec
  | case21 b h92 h34 hnle c2 h2n c3 h3n ih =>
    intro out hv h
    have h2f : valid2 b c2 = false := by simp [h2n]
    have h3f : valid3 b c2 c3 = false := by simp [h3n]
    rw [utf8Valid_three_invalid b c2 c3 hnle h2f h3f] at hv
    exact absurd hv (by simp)
  | case22 b h92 h34 hnle c2 h2n c3 h3n c4 rest h4 ih =>
    intro out hv h
    rw [unescapeGo_four' b c2 c3 c4 rest h4] at h
    obtain ⟨l, hrec, hout⟩ := except_map_ok _ _ _ h
    subst hout
    rw [utf8Valid_four b c2 c3 c4 rest h4] at hv
    rw [utf8Valid_four b c2 c3 c4 _ h4]
    exact ih l hv hrec
  | case23 b h92 h34 hnle c2 h2n c3 h3n c4 rest h4n ih =>
    intro out hv h
    have h2f : valid2 b c2 = false := by simp [h2n]
    have h3f : valid3 b c2 c3 = false := by simp [h3n]
    have h4f : valid4 b c2 c3 c4 = false := by simp [h4n]
    rw [utf8Valid_four_invalid b c2 c3 c4 rest hnle h2f h3f h4f] at hv
    exact absurd hv (by simp)

/-- `takeWhile` passes over a prefix all of whose elements satisfy the
predicate. -/
theorem takeWhile_append_all (p : Nat → Bool) (a c : List Nat)
    (ha : ∀ b ∈ a, p b = true) :
    (a ++ c).takeWhile p = a ++ c.takeWhile p := by
  induction a with
  | nil => simp
  | cons x xs ih =>
    have hx : p x = true := ha x (by simp)
    simp only [List.cons_append, List.takeWhile_cons, hx, if_true]
    rw [ih (fun b hb => ha b (by simp [hb]))]

/-- `dropWhile` passes over a prefix all of whose elements satisfy the
predicate. -/
theorem dropWhile_append_all (p : Nat → Bool) (a c : List Nat)
    (ha : ∀ b ∈ a, p b = true) :
    (a ++ c).dropWhile p = c.dropWhile p := by
  induction a with
  | nil => simp
  | cons x xs ih =>
    have hx : p x = true := ha x (by simp)
    simp only [List.cons_append, List.dropWhile_cons, hx, if_true]
    exact ih (fun b hb => ha b (by simp [hb]))

/-- Inversion of a successful regex front-end match: the name capture is a
non-empty run of name bytes starting with a name-start byte. -/
theorem findMatcherParts_name (s nm : List Nat) (t : MatchType) (v : List Nat)
    (h : findMatcherParts s = some (nm, t, v)) :
    nm ≠ [] ∧ (∀ b ∈ nm, isNameB b = true) ∧
      (∀ b0, nm.head? = some b0 → isNameStartB b0 = true) := by
  simp only [findMatcherParts] at h
  cases hh : ((s.dropWhile isSpaceB).takeWhile isNameB).head? with
  | none => rw [hh] at h; exact absurd h (by simp)
  | some b0 =>
    rw [hh] at h
    simp only at h
    by_cases hstart : isNameStartB b0 = true
    · rw [if_pos hstart] at h
      have hnm : nm = (s.dropWhile isSpaceB).takeWhile isNameB := by
        split at h
        all_goals first
          | (injection h with h2; exact (congrArg Prod.fst h2).symm)
          | injection h
      subst hnm
      refine ⟨?_, ?_, ?_⟩
      · intro hnil
        rw [hnil] at hh
        exact absurd hh (by simp)
      · intro b hb
        exact List.mem_takeWhile_imp hb
      · intro b1 hb1
        rw [hh] at hb1
        exact (Option.some.inj hb1) ▸ hstart
    · rw [if_neg hstart] at h
      exact absurd h (by simp)

/-- A quoted span is already space-trimmed: it starts and ends with `"`. -/
theorem trimSpaceB_quoted (xs : List Nat) :
    trimSpaceB (34 :: (xs ++ [34])) = 34 :: (xs ++ [34]) := by
  have h34 : isSpaceB 34 = false := by decide
  unfold trimSpaceB
  have e1 : (34 :: (xs ++ [34])).dropWhile isSpaceB = 34 :: (xs ++ [34]) := by
    rw [List.dropWhile_cons, if_neg (by simp [h34])]
  rw [e1]
  have e2 : (34 :: (xs ++ [34])).reverse = 34 :: (34 :: xs).reverse := by
    rw [show (34 :: (xs ++ [34])) = (34 :: xs) ++ [34] from by simp,
      List.reverse_append]
    rfl
  rw [e2]
  have e3 : (34 :: (34 :: xs).reverse).dropWhile isSpaceB =
      34 :: (34 :: xs).reverse := by
    rw [List.dropWhile_cons, if_neg (by simp [h34])]
  rw [e3, ← e2, List.reverse_reverse]

/-- Parsing the rendered form `name ++ op ++ quoted-escaped-value`: the
regex front-end recovers the name, the operator, and the quoted span. -/
theorem findMatcherParts_assembled (nmv : List Nat) (ty : MatchType)
    (E : List Nat) (hne : nmv ≠ [])
    (hstart : ∀ b0, nmv.head? = some b0 → isNameStartB b0 = true)
    (hall : ∀ b ∈ nmv, isNameB b = true) :
    findMatcherParts (nmv ++ (matchTypeBytes ty ++ ([34] ++ (E ++ [34])))) =
      some (nmv, ty, 34 :: (E ++ [34])) := by
  obtain ⟨b0, nm', hname⟩ := List.exists_cons_of_ne_nil hne
  have hb0 : isNameStartB b0 = true := hstart b0 (by rw [hname]; rfl)
  have hb0s : isSpaceB b0 = false := by
    revert hb0; simp [isNameStartB, isSpaceB]; omega
  cases ty with
  | matchEqual =>
    simp only [matchTypeBytes, findMatcherParts]
    have hA : (nmv ++ ([61] ++ ([34] ++ (E ++ [34])))).dropWhile isSpaceB =
        nmv ++ ([61] ++ ([34] ++ (E ++ [34]))) := by
      rw [hname, List.cons_append, List.dropWhile_cons, if_neg (by simp [hb0s])]
    have hT : (nmv ++ ([61] ++ ([34] ++ (E ++ [34])))).takeWhile isNameB =
        nmv := by
      rw [takeWhile_append_all _ _ _ hall]
      simp [isNameB]
    have hD : (nmv ++ ([61] ++ ([34] ++ (E ++ [34])))).dropWhile isNameB =
        61 :: (34 :: (E ++ [34])) := by
      rw [dropWhile_append_all _ _ _ hall]
      simp [isNameB]
    rw [hA, hT, hD, hname]
    simp only [List.head?_cons]
    rw [if_pos hb0]
    have hsp : (61 :: (34 :: (E ++ [34]))).dropWhile isSpaceB =
        61 :: (34 :: (E ++ [34])) := by
      rw [List.dropWhile_cons, if_neg (by simp [isSpaceB])]
    rw [hsp]
    simp [trimSpaceB_quoted]
  | matchRegexp =>
    simp only [matchTypeBytes, findMatcherParts]
    have hA : (nmv ++ ([61, 126] ++ ([34] ++ (E ++ [34])))).dropWhile isSpaceB =
        nmv ++ ([61, 126] ++ ([34] ++ (E ++ [34]))) := by
      rw [hname, List.cons_append, List.dropWhile_cons, if_neg (by simp [hb0s])]
    have hT : (nmv ++ ([61, 126] ++ ([34] ++ (E ++ [34])))).takeWhile isNameB =
        nmv := by
      rw [takeWhile_append_all _ _ _ hall]
      simp [isNameB]
    have hD : (nmv ++ ([61, 126] ++ ([34] ++ (E ++ [34])))).dropWhile isNameB =
        61 :: (126 :: (34 :: (E ++ [34]))) := by
      rw [dropWhile_append_all _ _ _ hall]
      simp [isNameB]
    rw [hA, hT, hD, hname]
    simp only [List.head?_cons]
    rw [if_pos hb0]
    have hsp : (61 :: (126 :: (34 :: (E ++ [34])))).dropWhile isSpaceB =
        61 :: (126 :: (34 :: (E ++ [34]))) := by
      rw [List.dropWhile_cons, if_neg (by simp [isSpaceB])]
    rw [hsp]
    simp [trimSpaceB_quoted]
  | matchNotEqual =>
    simp only [matchTypeBytes, findMatcherParts]
    have hA : (nmv ++ ([33, 61] ++ ([34] ++ (E ++ [34])))).dropWhile isSpaceB =
        nmv ++ ([33, 61] ++ ([34] ++ (E ++ [34]))) := by
      rw [hname, List.cons_append, List.dropWhile_cons, if_neg (by simp [hb0s])]
    have hT : (nmv ++ ([33, 61] ++ ([34] ++ (E ++ [34])))).takeWhile isNameB =
        nmv := by
      rw [takeWhile_append_all _ _ _ hall]
      simp [isNameB]
    have hD : (nmv ++ ([33, 61] ++ ([34] ++ (E ++ [34])))).dropWhile isNameB =
        33 :: (61 :: (34 :: (E ++ [34]))) := by
      rw [dropWhile_append_all _ _ _ hall]
      simp [isNameB]
    rw [hA, hT, hD, hname]
    simp only [List.head?_cons]
    rw [if_pos hb0]
    have hsp : (33 :: (61 :: (34 :: (E ++ [34])))).dropWhile isSpaceB =
        33 :: (61 :: (34 :: (E ++ [34]))) := by
      rw [List.dropWhile_cons, if_neg (by simp [isSpaceB])]
    rw [hsp]
    simp [trimSpaceB_quoted]
  | matchNotRegexp =>
    simp only [matchTypeBytes, findMatcherParts]
    have hA : (nmv ++ ([33, 126] ++ ([34] ++ (E ++ [34])))).dropWhile isSpaceB =
        nmv ++ ([33, 126] ++ ([34] ++ (E ++ [34]))) := by
      rw [hname, List.cons_append, List.dropWhile_cons, if_neg (by simp [hb0s])]
    have hT : (nmv ++ ([33, 126] ++ ([34] ++ (E ++ [34])))).takeWhile isNameB =
        nmv := by
      rw [takeWhile_append_all _ _ _ hall]
      simp [isNameB]
    have hD : (nmv ++ ([33, 126] ++ ([34] ++ (E ++ [34])))).dropWhile isNameB =
        33 :: (126 :: (34 :: (E ++ [34]))) := by
      rw [dropWhile_append_all _ _ _ hall]
      simp [isNameB]
    rw [hA, hT, hD, hname]
    simp only [List.head?_cons]
    rw [if_pos hb0]
    have hsp : (33 :: (126 :: (34 :: (E ++ [34])))).dropWhile isSpaceB =
        33 :: (126 :: (34 :: (E ++ [34]))) := by
      rw [List.dropWhile_cons, if_neg (by simp [isSpaceB])]
    rw [hsp]
    simp [trimSpaceB_quoted]

set_option maxHeartbeats 2000000 in
/-- C8: for every matcher text `t` that `ParseMatcher` accepts with result
`m`, rendering `m` as `Matcher.String` does (name, operator symbol, then
the value escaped by `openMetricsEscape` and wrapped in double quotes) and
re-parsing the rendered string yields exactly `m` again (same type, name
and value); and the rendered string can differ byte-for-byte from `t`. -/
theorem parseMatcher_render_roundtrip :
    (∀ t m, ParseMatcher t = .ok m → ParseMatcher (matcherString m) = .ok m) ∧
    (∃ t m, ParseMatcher t = .ok m ∧ matcherString m ≠ t ∧
      ParseMatcher (matcherString m) = .ok m) := by
  constructor
  · intro t m h
    obtain ⟨nm, ty, v, hf, hvalid, value, hun, hnew⟩ := parseMatcher_ok_inv t m h
    obtain ⟨hmt, hmn, hmv, _, _⟩ := newMatcher_ok_inv ty nm value m hnew
    obtain ⟨hne, hall, hstart⟩ := findMatcherParts_name t nm ty v hf
    have hvval : utf8Valid value = true :=
      unescapeGo_ok_valid (trimPrefixB 34 v) value hvalid hun
    have hne' : m.name ≠ [] := by rw [hmn]; exact hne
    have hall' : ∀ b ∈ m.name, isNameB b = true := by rw [hmn]; exact hall
    have hstart' : ∀ b0, m.name.head? = some b0 → isNameStartB b0 = true := by
      rw [hmn]; exact hstart
    have hvv : utf8Valid m.value = true := by rw [hmv]; exact hvval
    have hms : matcherString m =
        m.name ++ (matchTypeBytes m.mtype ++
          ([34] ++ (openMetricsEscape m.value ++ [34]))) := by
      simp [matcherString, List.append_assoc]
    have hfr : findMatcherParts (matcherString m) =
        some (m.name, m.mtype, 34 :: (openMetricsEscape m.value ++ [34])) := by
      rw [hms]
      exact findMatcherParts_assembled m.name m.mtype (openMetricsEscape m.value)
        hne' hstart' hall'
    have hraw : trimPrefixB 34 (34 :: (openMetricsEscape m.value ++ [34])) =
        openMetricsEscape m.value ++ [34] := by
      simp [trimPrefixB]
    have hv2 : utf8Valid (openMetricsEscape m.value ++ [34]) = true :=
      utf8Valid_append _ _ (openMetricsEscape_valid _ hvv) (by decide)
    have hu2 : unescapeGo (openMetricsEscape m.value ++ [34]) = .ok m.value :=
      unescape_escape _ hvv
    simp only [ParseMatcher]
    rw [hfr]
    simp only [hraw, hv2, if_true, hu2]
    rw [hmt, hmn, hmv]
    exact hnew
  · exact ⟨strB "a=b", ⟨.matchEqual, [97], [98], none⟩,
      by decide, by decide, by decide⟩

/-- Witness for `parseMatcher_render_roundtrip`: the round trip at the
concrete accepted input `a=b`. -/
theorem parseMatcher_render_roundtrip_witness :
    ParseMatcher (matcherString ⟨.matchEqual, [97], [98], none⟩) =
      .ok ⟨.matchEqual, [97], [98], none⟩ :=
  parseMatcher_render_roundtrip.1 (strB "a=b") ⟨.matchEqual, [97], [98], none⟩
    (by decide)
